import Mathlib
/-!
Verification of the matchmaking core (matchmaking.service.ts) of the
thetranscendence/matchmaking repository.

The service is a single-threaded (Node.js event loop) stateful engine.  We
embed it shallowly: the three in-memory indices (activeQueue, activeSockets,
pendingMatches) become a state record, every public operation becomes a pure
function from state to state, outbound interactions (Socket.IO emissions,
penalty-store writes, session-log writes, the remote createGame call) are
recorded as an effect trace, and thrown JS errors become Except values.  JS
Map iteration order is insertion order, so Maps are embedded as lists indexed
by their key; JS numbers (IEEE doubles) carrying integers are embedded as Int
and the floating-point rangeFactor as ℚ.  External collaborators (penalty
store, game service) are inputs: an environment record and a game-result
parameter.  The Socket.IO server is assumed attached (setServer is called at
bootstrap), so emissions are recorded unconditionally.
-/
namespace Matchmaking
/-- Ready-check status of one participant of a pending match
(the string union 'PENDING' | 'ACCEPTED' | 'DECLINED' of the source). -/
inductive PStatus
| pending
| accepted
| declined
deriving DecidableEq, Repr
/-- One waiting participant of the queue (QueuedPlayer of types.ts, as used by
matchmaking.service.ts: userId, socketId, elo, joinTime, rangeFactor, priority). -/
structure QueuedPlayer where
  userId : String
  socketId : String
  elo : Int
  joinTime : Int
  rangeFactor : ℚ
  priority : Bool
deriving DecidableEq, Repr
/-- A frozen participant tuple inside a PendingMatch. -/
structure MatchPlayer where
  userId : String
  socketId : String
  elo : Int
  status : PStatus
deriving DecidableEq, Repr
/-- An accept/decline session between two players (PendingMatch of types.ts).
The opaque timeoutId handle is embedded as the flag hasTimer: the JS code only
ever tests the handle for presence before calling clearTimeout. -/
structure PendingMatch where
  matchId : String
  expiresAt : Int
  player1 : MatchPlayer
  player2 : MatchPlayer
  hasTimer : Bool
deriving DecidableEq, Repr
/-- Outbound socket events emitted by the service (payload fields as built in
matchmaking.service.ts). -/
inductive Event
| queueJoined (userId : String) (elo : Int) (timestamp : Int) (priority : Bool)
| matchProposal (matchId : String) (expiresAt : Int) (opponentElo : Int)
| matchConfirmed (gameId : String) (player1Id : String) (player2Id : String)
| matchFailed (matchId : String) (reason : String) (errorCode : String) (message : String)
| matchCancelled (reason : String) (matchId : String)
deriving DecidableEq, Repr
/-- Observable interactions of the service with its collaborators, in program
order.  addPenalty records the success of the penalty-store write (the service
catches and only logs a failure, so the flag comes from the environment);
sessionLog always has status "STARTED" in the source. -/
inductive Effect
| emit (socketId : String) (ev : Event)
| queueStats (size : Nat) (pending : Nat)
| clearTimer (matchId : String)
| sessionLog (id : String) (player1Id : String) (player2Id : String) (startedAt : Int)
| addPenalty (userId : String) (durationSeconds : Nat) (reason : String) (ok : Bool)
| createGame (gameId : String) (player1Id : String) (player2Id : String)
deriving DecidableEq, Repr
/-- The three mutable indices of MatchmakingService: activeQueue (Map userId →
QueuedPlayer, in insertion order), activeSockets (Set of socketId), and
pendingMatches (Map matchId → PendingMatch, in insertion order). -/
structure MMState where
  activeQueue : List QueuedPlayer
  activeSockets : List String
  pendingMatches : List PendingMatch
deriving DecidableEq, Repr
/-- Errors thrown by the service (the messages of the `throw new Error(...)`
sites of the source, one constructor per message). -/
inductive MMError
| banned (expiresAt : String)
| alreadyQueued
| alreadyPending
| socketBusy
| matchNotFound
| notParticipant
deriving DecidableEq, Repr
/-- In the spec's error taxonomy both 'User already in queue' and 'User
already in a pending match' surface as the AlreadyQueued kind. -/
def MMError.isAlreadyQueued : MMError → Bool
| .alreadyQueued => true
| .alreadyPending => true
| _ => false
/-- External collaborators: getActivePenalty (some expires_at when a penalty
row is active) and the success of an addPenalty write (its failure is caught
and logged by the service). -/
structure Env where
  penaltyActive : String → Option String
  penaltyAddOk : String → Bool
/-- Constant of matchmaking.service.ts: time given to accept a proposal. -/
def MATCH_ACCEPT_TIMEOUT_MS : Int := 15000
/-- Constant of matchmaking.service.ts: penalty length in seconds. -/
def PENALTY_DURATION_SECONDS : Nat := 300
/-- Modelled from the spec: constants.ts is not part of the sources; the spec
recommends BASE_TOLERANCE = 50 Elo points. -/
def BASE_TOLERANCE : ℚ := 50
/-- Modelled from the spec: constants.ts is not part of the sources; the spec
recommends EXPANSION_INTERVAL_MS = 10000. -/
def EXPANSION_INTERVAL_MS : ℚ := 10000
/-- Modelled from the spec: constants.ts is not part of the sources; the spec
recommends EXPANSION_STEP = 1.0. -/
def EXPANSION_STEP : ℚ := 1
/-- Modelled from the spec: createQueuedPlayer of types.ts is not part of the
sources; per spec §4.1 a new QueuedPlayer has joinTime = now and
rangeFactor = 1.0. -/
def createQueuedPlayer (userId socketId : String) (elo : Int) (priority : Bool)
    (now : Int) : QueuedPlayer :=
  { userId := userId, socketId := socketId, elo := elo, joinTime := now,
    rangeFactor := 1, priority := priority }
/-- Membership test of the activeQueue Map by key (activeQueue.has). -/
def queueHas (q : List QueuedPlayer) (uid : String) : Bool :=
  q.any fun p => p.userId == uid
/-- Deletion from the activeQueue Map by key (activeQueue.delete); a Map holds
at most one entry per key, so removing every entry with the key is the same
operation. -/
def queueDelete (q : List QueuedPlayer) (uid : String) : List QueuedPlayer :=
  q.filter fun p => p.userId != uid
/-- Addition to the activeSockets Set (Set.add is a no-op on a present element). -/
def socketAdd (l : List String) (x : String) : List String :=
  if l.contains x then l else l ++ [x]
/-- Removal from the activeSockets Set (Set.delete). -/
def socketDelete (l : List String) (x : String) : List String :=
  l.filter fun y => y != x
/-- Scan of pendingMatches for a participant (isUserInPendingMatch). -/
def isUserInPendingMatch (s : MMState) (userId : String) : Bool :=
  s.pendingMatches.any fun m => m.player1.userId == userId || m.player2.userId == userId
/-- Queue statistics (getQueueStats). -/
def getQueueStats (s : MMState) : Nat × Nat :=
  (s.activeQueue.length, s.pendingMatches.length)
/-- The queue_stats broadcast (emitQueueStats) for a given state. -/
def statsEffect (s : MMState) : Effect :=
  Effect.queueStats s.activeQueue.length s.pendingMatches.length
/-- addPlayer: rejects banned, duplicate, pending-match and socket-busy
callers in that order, otherwise inserts a fresh QueuedPlayer into both
indices and broadcasts queue stats. -/
def addPlayer (env : Env) (s : MMState) (userId socketId : String) (elo : Int)
    (now : Int) (priority : Bool) : Except MMError (MMState × List Effect) :=
  match env.penaltyActive userId with
  | some expiresAt => .error (.banned expiresAt)
  | none =>
    if queueHas s.activeQueue userId then .error .alreadyQueued
    else if isUserInPendingMatch s userId then .error .alreadyPending
    else if s.activeSockets.contains socketId then .error .socketBusy
    else
      let player := createQueuedPlayer userId socketId elo priority now
      let s1 : MMState := { s with
        activeQueue := s.activeQueue ++ [player],
        activeSockets := socketAdd s.activeSockets socketId }
      .ok (s1, [statsEffect s1])
/-- removePlayer: resolves the identifier (userId first, else the first
queued player owning it as socketId), then removes that player from both
indices; a miss is a silent no-op. -/
def removePlayer (s : MMState) (identifier : String) : MMState × List Effect :=
  let targetId :=
    if queueHas s.activeQueue identifier then identifier
    else
      match s.activeQueue.find? (fun p => p.socketId == identifier) with
      | some p => p.userId
      | none => identifier
  match s.activeQueue.find? (fun p => p.userId == targetId) with
  | some player =>
    let s1 : MMState := { s with
      activeSockets := socketDelete s.activeSockets player.socketId,
      activeQueue := queueDelete s.activeQueue targetId }
    (s1, [statsEffect s1])
  | none => (s, [])
/-- Lookup of a pending match by id (pendingMatches.get). -/
def findMatch (s : MMState) (matchId : String) : Option PendingMatch :=
  s.pendingMatches.find? fun m => m.matchId == matchId
/-- In-place mutation of a match object held by the pendingMatches Map:
replace the first entry carrying its key. -/
def setMatch : List PendingMatch → PendingMatch → List PendingMatch
| [], m => [m]
| x :: xs, m => if x.matchId == m.matchId then m :: xs else x :: setMatch xs m
/-- Removal of a pending match together with clearTimeout on its timer, the
shared first step of cancelMatch and finalizeMatch. -/
def removePending (s : MMState) (m : PendingMatch) : MMState × List Effect :=
  ({ s with pendingMatches := s.pendingMatches.filter fun x => x.matchId != m.matchId },
   if m.hasTimer then [Effect.clearTimer m.matchId] else [])
/-- The guarded re-queue `addPlayer(..., true).catch(err => log)` used on the
innocent-cancel and game-creation-failure paths: a rejection is swallowed and
leaves the state unchanged. -/
def requeueAttempt (env : Env) (s : MMState) (p : MatchPlayer) (now : Int) :
    MMState × List Effect :=
  match addPlayer env s p.userId p.socketId p.elo now true with
  | .ok r => r
  | .error _ => (s, [])
/-- One iteration of the participants loop of cancelMatch: penalty plus
match_cancelled(penalty_applied) for a faulty participant; guarded priority
re-queue plus match_cancelled(opponent_declined) and queue_joined for an
innocent one. -/
def cancelParticipant (env : Env) (matchId : String) (guilty : List String)
    (reason : String) (now : Int) (acc : MMState × List Effect) (p : MatchPlayer) :
    MMState × List Effect :=
  if guilty.contains p.userId then
    (acc.1, acc.2 ++
      [Effect.addPenalty p.userId PENALTY_DURATION_SECONDS
        ("Matchmaking abuse: " ++ reason) (env.penaltyAddOk p.userId),
       Effect.emit p.socketId (.matchCancelled "penalty_applied" matchId)])
  else
    let r := requeueAttempt env acc.1 p now
    (r.1, acc.2 ++ r.2 ++
      [Effect.emit p.socketId (.matchCancelled "opponent_declined" matchId),
       Effect.emit p.socketId (.queueJoined p.userId p.elo now true)])
/-- cancelMatch: clear the timer, drop the match from the index, process both
participants (penalties for the faulty, priority re-queue for the innocent),
then broadcast queue stats. -/
def cancelMatch (env : Env) (s : MMState) (m : PendingMatch)
    (faultyUserIds : List String) (reason : String) (now : Int) :
    MMState × List Effect :=
  let r0 := removePending s m
  let r := [m.player1, m.player2].foldl
    (cancelParticipant env m.matchId faultyUserIds reason now) (r0.1, r0.2)
  (r.1, r.2 ++ [statsEffect r.1])
/-- Typed outcome of GameService.createGame (the client never throws: a
transport failure becomes a fallback failure value). -/
inductive GameResult
| success (gameId : String) (message : String)
| failure (error : String) (message : String)
deriving DecidableEq, Repr
/-- handleGameCreationSuccess: match_confirmed to both sockets. -/
def handleGameCreationSuccess (m : PendingMatch) (gameId : String) : List Effect :=
  [Effect.emit m.player1.socketId (.matchConfirmed gameId m.player1.userId m.player2.userId),
   Effect.emit m.player2.socketId (.matchConfirmed gameId m.player1.userId m.player2.userId)]
/-- handleGameCreationFailure: match_failed to both sockets, then per player a
guarded priority re-queue followed by an unconditional queue_joined emission. -/
def handleGameCreationFailure (env : Env) (s : MMState) (m : PendingMatch)
    (errorCode errorMessage : String) (now : Int) : MMState × List Effect :=
  let failEv := Event.matchFailed m.matchId "game_creation_failed" errorCode errorMessage
  let r1 := requeueAttempt env s m.player1 now
  let r2 := requeueAttempt env r1.1 m.player2 now
  (r2.1,
   [Effect.emit m.player1.socketId failEv, Effect.emit m.player2.socketId failEv] ++
   r1.2 ++
   [Effect.emit m.player1.socketId
     (.queueJoined m.player1.userId m.player1.elo now true)] ++
   r2.2 ++
   [Effect.emit m.player2.socketId
     (.queueJoined m.player2.userId m.player2.elo now true)])
/-- Steps 2-4 of finalizeMatch, after the pending entry is removed: the
session-log write (its failure is caught, so it has no control-flow effect),
the remote createGame call, and the dispatch on its typed result. -/
def finalizeRemote (env : Env) (s1 : MMState) (m : PendingMatch) (now : Int)
    (gr : GameResult) : MMState × List Effect :=
  let eHead := [Effect.sessionLog m.matchId m.player1.userId m.player2.userId now,
                Effect.createGame m.matchId m.player1.userId m.player2.userId]
  match gr with
  | .success gameId _ =>
    (s1, eHead ++ handleGameCreationSuccess m gameId ++ [statsEffect s1])
  | .failure errorCode message =>
    let r := handleGameCreationFailure env s1 m errorCode message now
    (r.1, eHead ++ r.2 ++ [statsEffect r.1])
/-- finalizeMatch: clear the timeout and delete the pending entry first, then
log the session, call the Game service and handle its result. -/
def finalizeMatch (env : Env) (s : MMState) (m : PendingMatch) (now : Int)
    (gr : GameResult) : MMState × List Effect :=
  let r0 := removePending s m
  let r := finalizeRemote env r0.1 m now gr
  (r.1, r0.2 ++ r.2)
/-- acceptMatch: unknown match and non-participant are errors; a duplicate
accept (status not PENDING) is a logged no-op; otherwise the status flips to
ACCEPTED and, when both statuses are ACCEPTED, the match is finalized. -/
def acceptMatch (env : Env) (s : MMState) (userId matchId : String) (now : Int)
    (gr : GameResult) : Except MMError (MMState × List Effect) :=
  match findMatch s matchId with
  | none => .error .matchNotFound
  | some m =>
    if m.player1.userId == userId then
      if m.player1.status != .pending then .ok (s, [])
      else
        let m1 := { m with player1 := { m.player1 with status := .accepted } }
        let s1 : MMState := { s with pendingMatches := setMatch s.pendingMatches m1 }
        if m1.player1.status == .accepted && m1.player2.status == .accepted then
          .ok (finalizeMatch env s1 m1 now gr)
        else .ok (s1, [])
    else if m.player2.userId == userId then
      if m.player2.status != .pending then .ok (s, [])
      else
        let m1 := { m with player2 := { m.player2 with status := .accepted } }
        let s1 : MMState := { s with pendingMatches := setMatch s.pendingMatches m1 }
        if m1.player1.status == .accepted && m1.player2.status == .accepted then
          .ok (finalizeMatch env s1 m1 now gr)
        else .ok (s1, [])
    else .error .notParticipant
/-- declineMatch: unknown match and non-participant are errors; otherwise the
match is cancelled with the decliner as the only faulty participant. -/
def declineMatch (env : Env) (s : MMState) (userId matchId : String) (now : Int) :
    Except MMError (MMState × List Effect) :=
  match findMatch s matchId with
  | none => .error .matchNotFound
  | some m =>
    if m.player1.userId != userId && m.player2.userId != userId then
      .error .notParticipant
    else
      .ok (cancelMatch env s m [userId] "declined" now)
/-- handleMatchTimeout: on an already-removed match the timer callback does
nothing; otherwise the match is cancelled with every still-PENDING participant
faulty and reason "timeout". -/
def handleMatchTimeout (env : Env) (s : MMState) (matchId : String) (now : Int) :
    MMState × List Effect :=
  match findMatch s matchId with
  | none => (s, [])
  | some m =>
    let faulty :=
      (if m.player1.status == .pending then [m.player1.userId] else []) ++
      (if m.player2.status == .pending then [m.player2.userId] else [])
    cancelMatch env s m faulty "timeout" now
/-- handleMatchFound: remove the pair from both waiting indices, insert a
PendingMatch with both statuses PENDING and an armed expiration timer, emit a
match_proposal to each side (each sees the opponent's elo), broadcast stats. -/
def handleMatchFound (s : MMState) (p1 p2 : QueuedPlayer) (matchId : String)
    (now : Int) : MMState × List Effect :=
  let expiresAt := now + MATCH_ACCEPT_TIMEOUT_MS
  let pm : PendingMatch :=
    { matchId := matchId, expiresAt := expiresAt,
      player1 := { userId := p1.userId, socketId := p1.socketId, elo := p1.elo,
                   status := .pending },
      player2 := { userId := p2.userId, socketId := p2.socketId, elo := p2.elo,
                   status := .pending },
      hasTimer := true }
  let s1 : MMState :=
    { activeQueue := queueDelete (queueDelete s.activeQueue p1.userId) p2.userId,
      activeSockets := socketDelete (socketDelete s.activeSockets p1.socketId) p2.socketId,
      pendingMatches := s.pendingMatches ++ [pm] }
  (s1, [Effect.emit p1.socketId (.matchProposal matchId expiresAt p2.elo),
        Effect.emit p2.socketId (.matchProposal matchId expiresAt p1.elo),
        statsEffect s1])
/-- The comparator passed to candidates.sort, turned into the boolean order
`compare(a, b) <= 0`: priority players first, ties by ascending elo. -/
def candidateLe (a b : QueuedPlayer) : Bool :=
  if a.priority && !b.priority then true
  else if !a.priority && b.priority then false
  else decide (a.elo ≤ b.elo)
/-- Range expansion at the head of the outer loop: when the wait time exceeds
EXPANSION_INTERVAL_MS * rangeFactor the factor grows by EXPANSION_STEP
(persisted on the queued player). -/
def expandRange (now : Int) (p : QueuedPlayer) : QueuedPlayer :=
  if EXPANSION_INTERVAL_MS * p.rangeFactor < ((now - p.joinTime : Int) : ℚ) then
    { p with rangeFactor := p.rangeFactor + EXPANSION_STEP }
  else p
/-- toleranceA of the outer loop: the active side enjoys the times-2 priority
bonus. -/
def toleranceA (p : QueuedPlayer) : ℚ :=
  BASE_TOLERANCE * p.rangeFactor * (if p.priority then 2 else 1)
/-- toleranceB of the inner loop: no priority bonus on the passive side. -/
def toleranceB (p : QueuedPlayer) : ℚ :=
  BASE_TOLERANCE * p.rangeFactor
/-- eloDiff = Math.abs(playerB.elo - playerA.elo). -/
def eloDiff (a b : QueuedPlayer) : ℚ :=
  |((b.elo - a.elo : Int) : ℚ)|
/-- The inner scan of the matcher: the first later candidate that is not yet
matched and whose elo distance fits under both tolerances. -/
def findOpponent (a : QueuedPlayer) (rest : List QueuedPlayer)
    (matched : List String) : Option QueuedPlayer :=
  rest.find? fun b =>
    !matched.contains b.userId &&
    decide (eloDiff a b ≤ toleranceA a) && decide (eloDiff a b ≤ toleranceB b)
/-- Queue write-through of the rangeFactor mutation: the sorted snapshot holds
references into the activeQueue Map, so mutating playerA updates the Map
entry with the same userId. -/
def writeBack (q : List QueuedPlayer) (p : QueuedPlayer) : List QueuedPlayer :=
  q.map fun x => if x.userId == p.userId then p else x
/-- The outer loop of matchmakingLoop over the sorted snapshot: skip
already-matched entries, apply range expansion (written through to the live
queue), scan for an opponent, and on a hit run handleMatchFound with a fresh
matchId drawn from the supply.  Besides the final state and the effect trace
it returns the list of pairs handed to handleMatchFound, in order. -/
def runTick (now : Int) :
    List QueuedPlayer → MMState → List String → List String →
    MMState × List Effect × List (QueuedPlayer × QueuedPlayer)
| [], s, _, _ => (s, [], [])
| a :: rest, s, matched, supply =>
  if matched.contains a.userId then runTick now rest s matched supply
  else
    let a1 := expandRange now a
    let s1 : MMState := { s with activeQueue := writeBack s.activeQueue a1 }
    match findOpponent a1 rest matched with
    | some b =>
      let r1 := handleMatchFound s1 a1 b (supply.headD "") now
      let r2 := runTick now rest r1.1 (a.userId :: b.userId :: matched) supply.tail
      (r2.1, r1.2 ++ r2.2.1, (a1, b) :: r2.2.2)
    | none => runTick now rest s1 matched supply
/-- matchmakingLoop: bail out below two waiting players, otherwise sort the
snapshot of the queue (priority first, then ascending elo; V8's sort is
stable, embedded as a stable merge sort) and run the pairing pass.  The
supply parameter feeds the randomUUID() calls of handleMatchFound. -/
def matchmakingLoop (s : MMState) (now : Int) (supply : List String) :
    MMState × List Effect × List (QueuedPlayer × QueuedPlayer) :=
  if s.activeQueue.length < 2 then (s, [], [])
  else runTick now (s.activeQueue.mergeSort candidateLe) s [] supply
/-- Composite candidate order as the spec words it: priority players first
(true before false), then ascending elo. -/
def specOrder (a b : QueuedPlayer) : Prop :=
  (a.priority = true ∧ b.priority = false) ∨ (a.priority = b.priority ∧ a.elo ≤ b.elo)
/-- Pairing rule as the spec words it, for the refinement statement of the
matcher: the first later not-yet-matched candidate B with
|eloA - eloB| ≤ min(toleranceA, toleranceB), the priority bonus counting only
in toleranceA of the active side. -/
def specFindOpponent (a : QueuedPlayer) (rest : List QueuedPlayer)
    (matched : List String) : Option QueuedPlayer :=
  rest.find? fun b =>
    !matched.contains b.userId &&
    decide (eloDiff a b ≤ min (toleranceA a) (toleranceB b))
/-- Greedy pass over the sorted candidates as the spec words it, returning the
pairs it forms. -/
def specPairs (now : Int) :
    List QueuedPlayer → List String → List (QueuedPlayer × QueuedPlayer)
| [], _ => []
| a :: rest, matched =>
  if matched.contains a.userId then specPairs now rest matched
  else
    let a1 := expandRange now a
    match specFindOpponent a1 rest matched with
    | some b => (a1, b) :: specPairs now rest (a.userId :: b.userId :: matched)
    | none => specPairs now rest matched
/-- A Socket.IO server whose k-th emission of the tick may throw: emissions
are the only calls of the tick path that can raise, and the source guards
none of them (there is no try/catch between handleMatchFound's emit calls,
matchmakingLoop and the setInterval callback of onModuleInit). -/
structure Notifier where
  emitOk : Nat → Bool
/-- One server emission under a fallible notifier; the counter orders the
emissions of a tick. -/
def emitE (ntf : Notifier) (k : Nat) : Except String Nat :=
  if ntf.emitOk k then .ok (k + 1) else .error "socket emit threw"
/-- handleMatchFound under a fallible notifier: the index mutations precede
the three emissions (two match_proposal, one queue_stats broadcast) exactly as
in the source, and an emission failure propagates to the caller. -/
def handleMatchFoundE (ntf : Notifier) (k : Nat) (s : MMState)
    (p1 p2 : QueuedPlayer) (matchId : String) (now : Int) :
    Except String (MMState × Nat) := do
  let s1 := (handleMatchFound s p1 p2 matchId now).1
  let k1 ← emitE ntf k
  let k2 ← emitE ntf k1
  let k3 ← emitE ntf k2
  .ok (s1, k3)
/-- The outer loop of the tick under a fallible notifier; no handler exists
anywhere in it, so an emission failure aborts the whole pass. -/
def runTickE (ntf : Notifier) (now : Int) :
    List QueuedPlayer → MMState → List String → List String → Nat →
    Except String (MMState × Nat)
| [], s, _, _, k => .ok (s, k)
| a :: rest, s, matched, supply, k =>
  if matched.contains a.userId then runTickE ntf now rest s matched supply k
  else
    let a1 := expandRange now a
    let s1 : MMState := { s with activeQueue := writeBack s.activeQueue a1 }
    match findOpponent a1 rest matched with
    | some b => do
      let r1 ← handleMatchFoundE ntf k s1 a1 b (supply.headD "") now
      runTickE ntf now rest r1.1 (a.userId :: b.userId :: matched) supply.tail r1.2
    | none => runTickE ntf now rest s1 matched supply k
/-- matchmakingLoop under a fallible notifier, exactly as installed by
onModuleInit: setInterval(() => this.matchmakingLoop(), TICK_RATE_MS) wraps
the body in no exception handler. -/
def matchmakingLoopE (ntf : Notifier) (s : MMState) (now : Int)
    (supply : List String) : Except String (MMState × Nat) :=
  if s.activeQueue.length < 2 then .ok (s, 0)
  else runTickE ntf now (s.activeQueue.mergeSort candidateLe) s [] supply 0
/-- The userIds of the waiting index, in Map order. -/
def queueUserIds (s : MMState) : List String :=
  s.activeQueue.map fun p => p.userId
/-- The userIds of the participants of all pending matches, in Map order. -/
def pendingUserIds (s : MMState) : List String :=
  s.pendingMatches.flatMap fun m => [m.player1.userId, m.player2.userId]
/-- Invariant 1 of the spec: a userId appears at most once across the union
of the waiting index and the participants of the pending matches. -/
def UsersOnce (s : MMState) : Prop :=
  (queueUserIds s ++ pendingUserIds s).Nodup
/-- State reached by a fallible operation: a thrown error leaves the indices
untouched (every throw site of the source precedes its mutations). -/
def stateAfter (s : MMState) (r : Except MMError (MMState × List Effect)) : MMState :=
  match r with
  | .ok r0 => r0.1
  | .error _ => s
/-- Number of Game-service createGame invocations recorded in a trace. -/
def countCreateGame (effs : List Effect) : Nat :=
  effs.countP fun e => match e with
    | .createGame _ _ _ => true
    | _ => false
/-- Number of match_confirmed events delivered to one socket in a trace. -/
def countConfirmedTo (socketId : String) (effs : List Effect) : Nat :=
  effs.countP fun e => match e with
    | .emit sk (.matchConfirmed _ _ _) => sk == socketId
    | _ => false
/-- A sequence of accept_match calls on one matchId, each thrown error being
reported to its own caller only (the gateway catches per call), with states
chained and traces concatenated. -/
def runAccepts (env : Env) (matchId : String) (now : Int) (gr : GameResult) :
    List String → MMState → MMState × List Effect
| [], s => (s, [])
| u :: us, s =>
  let r1 := match acceptMatch env s u matchId now gr with
    | .ok r => r
    | .error _ => (s, [])
  let r2 := runAccepts env matchId now gr us r1.1
  (r2.1, r1.2 ++ r2.2)
/-- The checks of addPlayer, as a predicate on the state it runs against: no
active penalty, not waiting, in no pending match, socket free. -/
def requeueOk (env : Env) (s : MMState) (p : MatchPlayer) : Bool :=
  (env.penaltyActive p.userId).isNone &&
  !queueHas s.activeQueue p.userId &&
  !isUserInPendingMatch s p.userId &&
  !s.activeSockets.contains p.socketId
/-- Effects that process one given participant: their penalty write and the
events delivered to their socket. -/
def effectFor (p : MatchPlayer) : Effect → Bool
| .addPenalty uid _ _ _ => uid == p.userId
| .emit sk _ => sk == p.socketId
| _ => false
/-! ### Claim C6 — addPlayer failure modes -/
/-- Environment of the re-queue-failure scenarios: user B carries an active
penalty at re-queue time, so addPlayer rejects them. -/
def envBanB : Env :=
  { penaltyActive := fun u => if u == "B" then some "2099-01-01" else none,
    penaltyAddOk := fun _ => true }
/-- The pending match of the re-queue-failure scenarios. -/
def matchAB : PendingMatch :=
  { matchId := "M1", expiresAt := 15000,
    player1 := { userId := "A", socketId := "sA", elo := 1500, status := .accepted },
    player2 := { userId := "B", socketId := "sB", elo := 1520, status := .accepted },
    hasTimer := true }
/-- State holding only that pending match. -/
def stAB : MMState :=
  { activeQueue := [], activeSockets := [], pendingMatches := [matchAB] }
/-- A queue where one player's socketId collides with another player's
userId: the identifier "idA" resolves to the userId of the second entry on a
first call and to the socketId of the first entry on a second call. -/
def stAlias : MMState :=
  { activeQueue :=
      [{ userId := "u1", socketId := "idA", elo := 1500, joinTime := 0,
         rangeFactor := 1, priority := false },
       { userId := "idA", socketId := "s2", elo := 1600, joinTime := 0,
         rangeFactor := 1, priority := false }],
    activeSockets := ["idA", "s2"],
    pendingMatches := [] }
/-- Well-formedness of the waiting index (spec invariants 1-2 restricted to
it): userIds and socketIds each occur at most once. -/
def QueueWF (s : MMState) : Prop :=
  (s.activeQueue.map fun p => p.userId).Nodup
  ∧ (s.activeQueue.map fun p => p.socketId).Nodup
/-- Identifier namespaces do not alias inside the waiting index: a socketId
equal to a userId only happens within one and the same entry. -/
def NoAlias (s : MMState) : Prop :=
  ∀ p ∈ s.activeQueue, ∀ r ∈ s.activeQueue, p.socketId = r.userId → p = r
/-- Environment with no active penalties (penalty writes succeed). -/
def envNone : Env :=
  { penaltyActive := fun _ => none, penaltyAddOk := fun _ => true }
/-- A one-player well-formed waiting state. -/
def stOne : MMState :=
  { activeQueue := [{ userId := "A", socketId := "sA", elo := 1500, joinTime := 0,
                      rangeFactor := 1, priority := false }],
    activeSockets := ["sA"],
    pendingMatches := [] }
/-- The environment with the penalty-store write outcome for one user
overridden (used to state that a store failure for one participant does not
affect the other's processing). -/
def updPenaltyAddOk (env : Env) (u : String) (b : Bool) : Env :=
  { env with penaltyAddOk := Function.update env.penaltyAddOk u b }
/-- The participant-status flip performed by acceptMatch on player1. -/
def acceptP1 (mm : PendingMatch) : PendingMatch :=
  { mm with player1 := { mm.player1 with status := .accepted } }
/-- The participant-status flip performed by acceptMatch on player2. -/
def acceptP2 (mm : PendingMatch) : PendingMatch :=
  { mm with player2 := { mm.player2 with status := .accepted } }
/-- Write-through of a mutated match object into the pendingMatches Map. -/
def withSet (s : MMState) (m2 : PendingMatch) : MMState :=
  { s with pendingMatches := setMatch s.pendingMatches m2 }
/-- Whether a createGame outcome is the success variant. -/
def GameResult.isSuccess : GameResult → Bool
| .success _ _ => true
| .failure _ _ => false
/-- The pending match of the ready-check scenarios, both statuses PENDING. -/
def matchABp : PendingMatch :=
  { matchId := "M1", expiresAt := 15000,
    player1 := { userId := "A", socketId := "sA", elo := 1500, status := .pending },
    player2 := { userId := "B", socketId := "sB", elo := 1520, status := .pending },
    hasTimer := true }
/-- State holding only that fresh pending match. -/
def stABp : MMState :=
  { activeQueue := [], activeSockets := [], pendingMatches := [matchABp] }
/-- A state with both waiting players and a pending match, satisfying the
uniqueness invariant. -/
def stMixed : MMState :=
  { activeQueue := stAlias.activeQueue,
    activeSockets := stAlias.activeSockets,
    pendingMatches := [matchABp] }
/-- A waiting player for the failing-tick scenario. -/
def pA : QueuedPlayer :=
  { userId := "A", socketId := "sA", elo := 1500, joinTime := 0,
    rangeFactor := 1, priority := false }
/-- The matchable opponent for the failing-tick scenario. -/
def pB : QueuedPlayer :=
  { userId := "B", socketId := "sB", elo := 1520, joinTime := 0,
    rangeFactor := 1, priority := false }
/-- Two matchable waiting players (elo distance 20 ≤ BASE_TOLERANCE). -/
def stPair : MMState :=
  { activeQueue := [pA, pB], activeSockets := ["sA", "sB"], pendingMatches := [] }
/-- Claim C6: addPlayer fails with Banned whenever getActivePenalty is
non-null; with AlreadyQueued (the spec kind covering both duplicate messages)
whenever the user is waiting or participates in a pending match, the penalty
check coming first; with SocketBusy whenever the socket is active and the
earlier checks pass; and a failure leaves the indices untouched, so a banned
user never enters the waiting index. -/
theorem addPlayer_failure_modes (env : Env) (s : MMState) (uid sock : String)
    (elo now : Int) (pri : Bool) :
    (∀ e, env.penaltyActive uid = some e →
      addPlayer env s uid sock elo now pri = .error (.banned e))
    ∧ (env.penaltyActive uid = none →
       (queueHas s.activeQueue uid = true ∨ isUserInPendingMatch s uid = true) →
      ∃ err, addPlayer env s uid sock elo now pri = .error err ∧
        err.isAlreadyQueued = true)
    ∧ (env.penaltyActive uid = none → queueHas s.activeQueue uid = true →
      addPlayer env s uid sock elo now pri = .error .alreadyQueued)
    ∧ (env.penaltyActive uid = none → queueHas s.activeQueue uid = false →
       isUserInPendingMatch s uid = true →
      addPlayer env s uid sock elo now pri = .error .alreadyPending)
    ∧ (env.penaltyActive uid = none → queueHas s.activeQueue uid = false →
       isUserInPendingMatch s uid = false → s.activeSockets.contains sock = true →
      addPlayer env s uid sock elo now pri = .error .socketBusy)
    ∧ (∀ err, addPlayer env s uid sock elo now pri = .error err →
      stateAfter s (addPlayer env s uid sock elo now pri) = s)
    ∧ (∀ e, env.penaltyActive uid = some e →
      queueHas (stateAfter s (addPlayer env s uid sock elo now pri)).activeQueue uid
        = queueHas s.activeQueue uid) := by
  refine ⟨?_, ?_, ?_, ?_, ?_, ?_, ?_⟩
  · intro e he
    simp [addPlayer, he]
  · intro hp hq
    rcases hq with hq | hq
    · exact ⟨.alreadyQueued, by simp [addPlayer, hp, hq], rfl⟩
    · refine ⟨if queueHas s.activeQueue uid then .alreadyQueued else .alreadyPending, ?_, ?_⟩
      · by_cases h : queueHas s.activeQueue uid = true <;> simp [addPlayer, hp, hq, h]
      · by_cases h : queueHas s.activeQueue uid = true <;> simp [h, MMError.isAlreadyQueued]
  · intro hp hq
    simp [addPlayer, hp, hq]
  · intro hp hq hm
    simp [addPlayer, hp, hq, hm]
  · intro hp hq hm hs
    simp [addPlayer, hp, hq, hm]
    simpa using hs
  · intro err herr
    simp [stateAfter, herr]
  · intro e he
    simp [stateAfter, addPlayer, he]
/-- Concrete instantiation of the addPlayer failure modes: a user with an
active penalty is rejected as banned and stays out of the waiting index. -/
theorem addPlayer_failure_modes_witness :
    ({ penaltyActive := fun u => if u == "B" then some "2099-01-01" else none,
       penaltyAddOk := fun _ => true : Env }.penaltyActive "B" = some "2099-01-01")
    ∧ addPlayer
        { penaltyActive := fun u => if u == "B" then some "2099-01-01" else none,
          penaltyAddOk := fun _ => true }
        { activeQueue := [], activeSockets := [], pendingMatches := [] }
        "B" "sB" 1520 0 false = .error (.banned "2099-01-01") :=
  ⟨by decide,
   (addPlayer_failure_modes
     { penaltyActive := fun u => if u == "B" then some "2099-01-01" else none,
       penaltyAddOk := fun _ => true }
     { activeQueue := [], activeSockets := [], pendingMatches := [] }
     "B" "sB" 1520 0 false).1 "2099-01-01" (by decide)⟩
/-! ### Claim C10 — queue_joined emitted even when the re-queue is rejected -/
/-- Claim C10: on both re-queue paths the queue_joined priority event is
emitted unconditionally: with an active penalty on B, the asynchronous
addPlayer rejection is only caught and logged, yet B's socket still receives
queue_joined with priority true while B is absent from the waiting index —
both when B is the innocent participant of a cancellation and when game
creation fails after mutual accept. -/
theorem queue_joined_emitted_despite_requeue_rejection :
    (Effect.emit "sB" (.queueJoined "B" 1520 5 true)
        ∈ (cancelMatch envBanB stAB matchAB ["A"] "declined" 5).2
      ∧ queueHas (cancelMatch envBanB stAB matchAB ["A"] "declined" 5).1.activeQueue "B"
          = false)
    ∧ (Effect.emit "sB" (.queueJoined "B" 1520 5 true)
        ∈ (handleGameCreationFailure envBanB stAB matchAB "GAME_ALREADY_EXISTS" "boom" 5).2
      ∧ queueHas
          (handleGameCreationFailure envBanB stAB matchAB "GAME_ALREADY_EXISTS" "boom" 5).1.activeQueue
          "B" = false) := by
  constructor
  · constructor <;> decide
  · constructor <;> decide
/-! ### Claim C8 — removePlayer -/
/-- Claim C8, counterexample: removePlayer is not idempotent as stated — on
the aliased queue above, the second removePlayer("idA") call removes a second
player instead of being a no-op. -/
theorem removePlayer_not_idempotent :
    (removePlayer (removePlayer stAlias "idA").1 "idA").1
      ≠ (removePlayer stAlias "idA").1 := by
  decide
theorem queueHas_delete_self (q : List QueuedPlayer) (uid : String) :
    queueHas (queueDelete q uid) uid = false := by
  simp [queueHas, queueDelete, List.any_eq_true, List.mem_filter]
theorem find_userId_eq_none_of_not_has {q : List QueuedPlayer} {uid : String}
    (h : queueHas q uid = false) :
    q.find? (fun p => p.userId == uid) = none := by
  rw [List.find?_eq_none]
  intro x hx
  simp [queueHas, List.any_eq_true] at h
  simpa using h x hx
theorem find_userId_of_nodup {l : List QueuedPlayer} {p : QueuedPlayer}
    (hn : (l.map fun q => q.userId).Nodup) (hp : p ∈ l) :
    l.find? (fun q => q.userId == p.userId) = some p := by
  induction l with
  | nil => cases hp
  | cons x xs ih =>
    rw [List.map_cons, List.nodup_cons] at hn
    rcases List.mem_cons.1 hp with rfl | hp2
    · simp [List.find?]
    · have hne : x.userId ≠ p.userId := by
        intro he
        exact hn.1 (he ▸ List.mem_map_of_mem (fun q => q.userId) hp2)
      have hb : (x.userId == p.userId) = false := by simpa using hne
      simp only [List.find?, hb]
      exact ih hn.2 hp2
theorem removePlayer_miss (s : MMState) (idf : String)
    (hq : queueHas s.activeQueue idf = false)
    (hf : s.activeQueue.find? (fun q => q.socketId == idf) = none) :
    removePlayer s idf = (s, []) := by
  unfold removePlayer
  simp only [hq, Bool.false_eq_true, if_false, hf]
  rw [find_userId_eq_none_of_not_has hq]
theorem removePlayer_hit_userId (s : MMState) (idf : String) (p : QueuedPlayer)
    (hq : queueHas s.activeQueue idf = true)
    (hf : s.activeQueue.find? (fun q => q.userId == idf) = some p) :
    removePlayer s idf =
      ({ s with activeSockets := socketDelete s.activeSockets p.socketId,
                activeQueue := queueDelete s.activeQueue idf },
       [statsEffect { s with activeSockets := socketDelete s.activeSockets p.socketId,
                             activeQueue := queueDelete s.activeQueue idf }]) := by
  unfold removePlayer
  simp only [hq, if_true, hf]
theorem removePlayer_hit_socketId (s : MMState) (idf : String) (p : QueuedPlayer)
    (hq : queueHas s.activeQueue idf = false)
    (hf : s.activeQueue.find? (fun q => q.socketId == idf) = some p)
    (hfu : s.activeQueue.find? (fun q => q.userId == p.userId) = some p) :
    removePlayer s idf =
      ({ s with activeSockets := socketDelete s.activeSockets p.socketId,
                activeQueue := queueDelete s.activeQueue p.userId },
       [statsEffect { s with activeSockets := socketDelete s.activeSockets p.socketId,
                             activeQueue := queueDelete s.activeQueue p.userId }]) := by
  unfold removePlayer
  simp only [hq, Bool.false_eq_true, if_false, hf, hfu]
theorem queueHas_true_find {q : List QueuedPlayer} {uid : String}
    (hq : queueHas q uid = true) :
    ∃ p, q.find? (fun x => x.userId == uid) = some p := by
  cases hf : q.find? (fun x => x.userId == uid) with
  | some p => exact ⟨p, rfl⟩
  | none =>
    rw [List.find?_eq_none] at hf
    simp only [queueHas, List.any_eq_true] at hq
    obtain ⟨x, hx, hxe⟩ := hq
    exact absurd hxe (by simpa using hf x hx)
/-- Claim C8 (amended): removePlayer resolves a userId first and otherwise
the owning waiting player by socketId, removes that player from both waiting
indices, never modifies the pending-match index, and the round trip
addPlayer(u) → removePlayer(u) → addPlayer(u) succeeds without AlreadyQueued;
idempotence holds on well-formed queues (unique userIds and socketIds) in
which no entry's socketId equals another entry's userId. -/
theorem removePlayer_spec (env : Env) (s : MMState) (idf : String) :
    (removePlayer s idf).1.pendingMatches = s.pendingMatches
    ∧ (∀ p, queueHas s.activeQueue idf = true →
        s.activeQueue.find? (fun q => q.userId == idf) = some p →
        queueHas (removePlayer s idf).1.activeQueue idf = false
        ∧ (removePlayer s idf).1.activeSockets = socketDelete s.activeSockets p.socketId)
    ∧ (∀ p, queueHas s.activeQueue idf = false →
        s.activeQueue.find? (fun q => q.socketId == idf) = some p →
        (s.activeQueue.map fun q => q.userId).Nodup →
        queueHas (removePlayer s idf).1.activeQueue p.userId = false
        ∧ (removePlayer s idf).1.activeSockets = socketDelete s.activeSockets p.socketId)
    ∧ (QueueWF s → NoAlias s →
        removePlayer (removePlayer s idf).1 idf = ((removePlayer s idf).1, []))
    ∧ (∀ r uid sock elo now now2 pri pri2,
        addPlayer env s uid sock elo now pri = .ok r →
        (removePlayer r.1 uid).1 = s
        ∧ ∃ r2, addPlayer env s uid sock elo now2 pri2 = .ok r2) := by
  refine ⟨?_, ?_, ?_, ?_, ?_⟩
  · by_cases hq : queueHas s.activeQueue idf = true
    · obtain ⟨p, hf⟩ := queueHas_true_find hq
      rw [removePlayer_hit_userId s idf p hq hf]
    · rw [Bool.not_eq_true] at hq
      cases hf : s.activeQueue.find? (fun q => q.socketId == idf) with
      | none => rw [removePlayer_miss s idf hq hf]
      | some p =>
        cases hfu : s.activeQueue.find? (fun q => q.userId == p.userId) with
        | none =>
          unfold removePlayer
          simp only [hq, Bool.false_eq_true, if_false, hf, hfu]
        | some p2 =>
          unfold removePlayer
          simp only [hq, Bool.false_eq_true, if_false, hf, hfu]
  · intro p hq hf
    rw [removePlayer_hit_userId s idf p hq hf]
    exact ⟨queueHas_delete_self _ _, rfl⟩
  · intro p hq hf hnu
    have hmem := List.mem_of_find?_eq_some hf
    rw [removePlayer_hit_socketId s idf p hq hf (find_userId_of_nodup hnu hmem)]
    exact ⟨queueHas_delete_self _ _, rfl⟩
  · intro hwf hal
    rcases hwf with ⟨hnu, hns⟩
    by_cases hq : queueHas s.activeQueue idf = true
    · obtain ⟨p, hf⟩ := queueHas_true_find hq
      have hpid : p.userId = idf := by simpa using List.find?_some hf
      have hpmem := List.mem_of_find?_eq_some hf
      rw [removePlayer_hit_userId s idf p hq hf]
      apply removePlayer_miss
      · exact queueHas_delete_self _ _
      · rw [List.find?_eq_none]
        intro x hx
        rw [queueDelete, List.mem_filter] at hx
        intro hxe
        have hxp : x = p := hal x hx.1 p hpmem (by rw [hpid]; simpa using hxe)
        rw [hxp, hpid] at hx
        simp at hx
    · rw [Bool.not_eq_true] at hq
      cases hf : s.activeQueue.find? (fun q => q.socketId == idf) with
      | none =>
        rw [removePlayer_miss s idf hq hf]
        exact removePlayer_miss s idf hq hf
      | some p =>
        have hpsock : p.socketId = idf := by simpa using List.find?_some hf
        have hpmem := List.mem_of_find?_eq_some hf
        have hinj : ∀ x ∈ s.activeQueue, ∀ y ∈ s.activeQueue,
            x.socketId = y.socketId → x = y :=
          fun x hx y hy hxy => List.inj_on_of_nodup_map hns hx hy hxy
        rw [removePlayer_hit_socketId s idf p hq hf (find_userId_of_nodup hnu hpmem)]
        apply removePlayer_miss
        · simp only [queueHas]
          rw [List.any_eq_false]
          intro x hx
          simp only [queueDelete, List.mem_filter] at hx
          simp only [beq_iff_eq]
          intro hxe
          have hxp : p = x := hal p hpmem x hx.1 (by rw [hpsock, hxe])
          have : (x.userId != p.userId) = true := hx.2
          rw [hxp] at this
          simp at this
        · rw [List.find?_eq_none]
          intro x hx
          rw [queueDelete, List.mem_filter] at hx
          intro hxe
          have hxp : x = p := hinj x hx.1 p hpmem (by rw [hpsock]; simpa using hxe)
          rw [hxp] at hx
          simp at hx
  · intro r uid sock elo now now2 pri pri2 hok
    unfold addPlayer at hok
    cases hpen : env.penaltyActive uid with
    | some e => rw [hpen] at hok; cases hok
    | none =>
      rw [hpen] at hok
      by_cases h1 : queueHas s.activeQueue uid = true
      · simp only [h1, if_true] at hok; cases hok
      rw [Bool.not_eq_true] at h1
      by_cases h2 : isUserInPendingMatch s uid = true
      · simp only [h1, h2, Bool.false_eq_true, if_false, if_true] at hok; cases hok
      rw [Bool.not_eq_true] at h2
      by_cases h3 : s.activeSockets.contains sock = true
      · simp only [h1, h2, h3, Bool.false_eq_true, if_false, if_true] at hok; cases hok
      rw [Bool.not_eq_true] at h3
      simp only [h1, h2, h3, Bool.false_eq_true, if_false] at hok
      cases hok
      constructor
      · have hqhas : queueHas
            (s.activeQueue ++ [createQueuedPlayer uid sock elo pri now]) uid = true := by
          simp [queueHas, createQueuedPlayer]
        have hfP : (s.activeQueue ++ [createQueuedPlayer uid sock elo pri now]).find?
            (fun q => q.userId == uid) = some (createQueuedPlayer uid sock elo pri now) := by
          rw [List.find?_append, find_userId_eq_none_of_not_has h1]
          simp [createQueuedPlayer]
        rw [removePlayer_hit_userId _ uid (createQueuedPlayer uid sock elo pri now)
          hqhas hfP]
        have h1' := h1
        simp only [queueHas, List.any_eq_false] at h1'
        have hnmem : sock ∉ s.activeSockets := by simpa using h3
        have hqrest : queueDelete
            (s.activeQueue ++ [createQueuedPlayer uid sock elo pri now]) uid
            = s.activeQueue := by
          simp only [queueDelete]
          rw [List.filter_append]
          have hl : s.activeQueue.filter (fun p => p.userId != uid) = s.activeQueue := by
            rw [List.filter_eq_self]
            intro a ha
            simpa using h1' a ha
          rw [hl]
          simp [createQueuedPlayer]
        have hsrest : socketDelete (socketAdd s.activeSockets sock)
            (createQueuedPlayer uid sock elo pri now).socketId = s.activeSockets := by
          show socketDelete (socketAdd s.activeSockets sock) sock = s.activeSockets
          simp only [socketAdd, socketDelete]
          rw [if_neg (by simpa using h3), List.filter_append]
          have hl : s.activeSockets.filter (fun y => y != sock) = s.activeSockets := by
            rw [List.filter_eq_self]
            intro a ha
            have hne : a ≠ sock := fun he => hnmem (he ▸ ha)
            simpa using hne
          rw [hl]
          simp
        simp only [hqrest, hsrest]
      · unfold addPlayer
        rw [hpen]
        simp only [h1, h2, h3, Bool.false_eq_true, if_false]
        exact ⟨_, rfl⟩
/-- Concrete instantiation of the removePlayer properties: on a well-formed
non-aliased one-player queue the second removal is a no-op. -/
theorem removePlayer_spec_witness :
    (QueueWF stOne ∧ NoAlias stOne)
    ∧ removePlayer (removePlayer stOne "A").1 "A" = ((removePlayer stOne "A").1, []) := by
  have hna : NoAlias stOne := by
    intro p hp r hr _
    simp only [stOne, List.mem_singleton] at hp hr
    rw [hp, hr]
  have hwf : QueueWF stOne := ⟨by decide, by decide⟩
  exact ⟨⟨hwf, hna⟩, (removePlayer_spec envNone stOne "A").2.2.2.1 hwf hna⟩
theorem findMatch_filter_self (s : MMState) (mid : String) :
    (List.filter (fun x => x.matchId != mid) s.pendingMatches).find?
      (fun m => m.matchId == mid) = none := by
  rw [List.find?_eq_none]
  intro x hx
  rw [List.mem_filter] at hx
  simpa using hx.2
theorem findMatch_removePending (s : MMState) (m : PendingMatch) :
    findMatch (removePending s m).1 m.matchId = none := by
  simp only [findMatch, removePending]
  exact findMatch_filter_self s m.matchId
theorem addPlayer_ok_shape (env : Env) (s : MMState) (uid sock : String)
    (elo now : Int) (pri : Bool)
    (hp : env.penaltyActive uid = none) (h1 : queueHas s.activeQueue uid = false)
    (h2 : isUserInPendingMatch s uid = false)
    (h3 : s.activeSockets.contains sock = false) :
    addPlayer env s uid sock elo now pri = .ok
      ({ s with activeQueue := s.activeQueue ++ [createQueuedPlayer uid sock elo pri now],
                activeSockets := socketAdd s.activeSockets sock },
       [statsEffect
         { s with activeQueue := s.activeQueue ++ [createQueuedPlayer uid sock elo pri now],
                  activeSockets := socketAdd s.activeSockets sock }]) := by
  unfold addPlayer
  rw [hp]
  simp only [h1, h2, h3, Bool.false_eq_true, if_false]
theorem addPlayer_pending (env : Env) (s : MMState) (uid sock : String)
    (elo now : Int) (pri : Bool) :
    (stateAfter s (addPlayer env s uid sock elo now pri)).pendingMatches
      = s.pendingMatches := by
  unfold addPlayer
  cases hp : env.penaltyActive uid with
  | some e => rfl
  | none =>
    by_cases h1 : queueHas s.activeQueue uid = true
    · simp [h1, stateAfter]
    by_cases h2 : isUserInPendingMatch s uid = true
    · simp [h1, h2, stateAfter]
    by_cases h3 : sock ∈ s.activeSockets
    · simp [h1, h2, h3, stateAfter]
    simp [h1, h2, h3, stateAfter]
theorem requeueAttempt_fst (env : Env) (s : MMState) (p : MatchPlayer) (now : Int) :
    (requeueAttempt env s p now).1
      = stateAfter s (addPlayer env s p.userId p.socketId p.elo now true) := by
  unfold requeueAttempt stateAfter
  cases addPlayer env s p.userId p.socketId p.elo now true with
  | ok r => rfl
  | error e => rfl
theorem requeueAttempt_pending (env : Env) (s : MMState) (p : MatchPlayer) (now : Int) :
    (requeueAttempt env s p now).1.pendingMatches = s.pendingMatches := by
  rw [requeueAttempt_fst]
  exact addPlayer_pending env s p.userId p.socketId p.elo now true
theorem handleGameCreationFailure_pending (env : Env) (s : MMState)
    (m : PendingMatch) (ec msg : String) (now : Int) :
    (handleGameCreationFailure env s m ec msg now).1.pendingMatches
      = s.pendingMatches := by
  unfold handleGameCreationFailure
  rw [requeueAttempt_pending, requeueAttempt_pending]
/-- Claim C4: finalizeMatch cancels the expiration timer and removes the
pending match from the index before the remote createGame call (the trace
starts clearTimer, sessionLog, createGame, and the whole remainder of
finalization runs from the already-pruned state), so a decline arriving after
mutual accept has been entered — at the suspension point of the remote call
or later — fails with MatchNotFound and, being an error, performs no penalty
write and no state change. -/
theorem finalize_removes_before_remote (env : Env) (s : MMState)
    (m : PendingMatch) (now : Int) (gr : GameResult) (u : String)
    (ht : m.hasTimer = true) :
    (∃ tail, (finalizeMatch env s m now gr).2 =
      Effect.clearTimer m.matchId ::
      Effect.sessionLog m.matchId m.player1.userId m.player2.userId now ::
      Effect.createGame m.matchId m.player1.userId m.player2.userId :: tail)
    ∧ finalizeMatch env s m now gr =
        ((finalizeRemote env (removePending s m).1 m now gr).1,
         (removePending s m).2 ++ (finalizeRemote env (removePending s m).1 m now gr).2)
    ∧ findMatch (removePending s m).1 m.matchId = none
    ∧ declineMatch env (removePending s m).1 u m.matchId now = .error .matchNotFound
    ∧ findMatch (finalizeMatch env s m now gr).1 m.matchId = none := by
  have hrm : findMatch (removePending s m).1 m.matchId = none :=
    findMatch_removePending s m
  refine ⟨?_, rfl, hrm, ?_, ?_⟩
  · cases gr with
    | success g msg =>
      exact ⟨handleGameCreationSuccess m g ++ [statsEffect (removePending s m).1],
        by simp [finalizeMatch, finalizeRemote, removePending, ht]⟩
    | failure ec msg =>
      exact ⟨(handleGameCreationFailure env (removePending s m).1 m ec msg now).2
          ++ [statsEffect (handleGameCreationFailure env (removePending s m).1 m ec msg now).1],
        by simp [finalizeMatch, finalizeRemote, removePending, ht]⟩
  · unfold declineMatch
    rw [hrm]
  · have hpend : (finalizeMatch env s m now gr).1.pendingMatches
        = (removePending s m).1.pendingMatches := by
      cases gr with
      | success g msg => rfl
      | failure ec msg =>
        simp only [finalizeMatch, finalizeRemote]
        exact handleGameCreationFailure_pending env (removePending s m).1 m ec msg now
    unfold findMatch
    rw [hpend]
    simp only [removePending]
    exact findMatch_filter_self s m.matchId
/-- Concrete instantiation of the finalize-before-remote property: on the
pending match of stAB the interleaved decline is rejected. -/
theorem finalize_removes_before_remote_witness :
    matchAB.hasTimer = true
    ∧ declineMatch envNone (removePending stAB matchAB).1 "A" matchAB.matchId 5
        = .error .matchNotFound :=
  ⟨by decide,
   (finalize_removes_before_remote envNone stAB matchAB 5 (.success "g" "ok") "A"
     (by decide)).2.2.2.1⟩
theorem stateAfter_addPlayer (env : Env) (s : MMState) (uid sock : String)
    (elo now : Int) (pri : Bool) :
    stateAfter s (addPlayer env s uid sock elo now pri) = s
    ∨ stateAfter s (addPlayer env s uid sock elo now pri)
        = { s with activeQueue := s.activeQueue ++ [createQueuedPlayer uid sock elo pri now],
                   activeSockets := socketAdd s.activeSockets sock } := by
  unfold addPlayer
  cases hp : env.penaltyActive uid with
  | some e => left; rfl
  | none =>
    by_cases h1 : queueHas s.activeQueue uid = true
    · left; simp [h1, stateAfter]
    by_cases h2 : isUserInPendingMatch s uid = true
    · left; simp [h1, h2, stateAfter]
    by_cases h3 : sock ∈ s.activeSockets
    · left; simp [h1, h2, h3, stateAfter]
    right; simp [h1, h2, h3, stateAfter]
theorem requeueAttempt_of_ok (env : Env) (s : MMState) (p : MatchPlayer) (now : Int)
    (h : requeueOk env s p = true) :
    (requeueAttempt env s p now).1
      = { s with activeQueue :=
                   s.activeQueue ++ [createQueuedPlayer p.userId p.socketId p.elo true now],
                 activeSockets := socketAdd s.activeSockets p.socketId } := by
  simp only [requeueOk, Bool.and_eq_true, Bool.not_eq_true',
    Option.isNone_iff_eq_none] at h
  obtain ⟨⟨⟨hp, h1⟩, h2⟩, h3⟩ := h
  rw [requeueAttempt_fst,
    addPlayer_ok_shape env s p.userId p.socketId p.elo now true hp h1 h2 h3]
  rfl
theorem requeueAttempt_mem (env : Env) (s : MMState) (p : MatchPlayer) (now : Int)
    (q : QueuedPlayer) (h : q ∈ s.activeQueue) :
    q ∈ (requeueAttempt env s p now).1.activeQueue := by
  rw [requeueAttempt_fst]
  rcases stateAfter_addPlayer env s p.userId p.socketId p.elo now true with he | he
  · rw [he]; exact h
  · rw [he]; exact List.mem_append_left _ h
theorem requeueOk_after_attempt (env : Env) (s : MMState) (p1 p2 : MatchPlayer)
    (now : Int) (h : requeueOk env s p2 = true)
    (hu : p2.userId ≠ p1.userId) (hs2 : p2.socketId ≠ p1.socketId) :
    requeueOk env (requeueAttempt env s p1 now).1 p2 = true := by
  rw [requeueAttempt_fst]
  rcases stateAfter_addPlayer env s p1.userId p1.socketId p1.elo now true with he | he
  · rw [he]; exact h
  · rw [he]
    simp only [requeueOk, Bool.and_eq_true, Bool.not_eq_true',
      Option.isNone_iff_eq_none] at h ⊢
    obtain ⟨⟨⟨hp, h1⟩, h2⟩, h3⟩ := h
    refine ⟨⟨⟨hp, ?_⟩, h2⟩, ?_⟩
    · simp only [queueHas, List.any_append, Bool.or_eq_false_iff] at h1 ⊢
      refine ⟨h1, ?_⟩
      simp [createQueuedPlayer]
      exact fun he => absurd he.symm hu
    · simp only [socketAdd]
      by_cases hc : s.activeSockets.contains p1.socketId = true
      · rw [if_pos hc]; exact h3
      · rw [if_neg hc]
        have h3m : p2.socketId ∉ s.activeSockets := by simpa using h3
        have hni : p2.socketId ∉ s.activeSockets ++ [p1.socketId] := by
          simp [h3m]
          exact hs2
        simpa using hni
/-- Claim C7: when createGame fails after mutual accept, the handler emits
match_failed with reason game_creation_failed, the error code and the message
to both participants' sockets, emits queue_joined with priority true to each,
and re-queues both with priority; one participant's re-queue failing does not
block the other (player2's re-queue needs nothing about player1's checks). -/
theorem game_creation_failure_requeues (env : Env) (s : MMState)
    (m : PendingMatch) (ec msg : String) (now : Int) :
    (Effect.emit m.player1.socketId
        (.matchFailed m.matchId "game_creation_failed" ec msg)
        ∈ (handleGameCreationFailure env s m ec msg now).2
      ∧ Effect.emit m.player2.socketId
        (.matchFailed m.matchId "game_creation_failed" ec msg)
        ∈ (handleGameCreationFailure env s m ec msg now).2)
    ∧ (Effect.emit m.player1.socketId
        (.queueJoined m.player1.userId m.player1.elo now true)
        ∈ (handleGameCreationFailure env s m ec msg now).2
      ∧ Effect.emit m.player2.socketId
        (.queueJoined m.player2.userId m.player2.elo now true)
        ∈ (handleGameCreationFailure env s m ec msg now).2)
    ∧ (requeueOk env s m.player1 = true →
        ∃ q ∈ (handleGameCreationFailure env s m ec msg now).1.activeQueue,
          q.userId = m.player1.userId ∧ q.priority = true)
    ∧ (requeueOk env s m.player2 = true →
        m.player2.userId ≠ m.player1.userId →
        m.player2.socketId ≠ m.player1.socketId →
        ∃ q ∈ (handleGameCreationFailure env s m ec msg now).1.activeQueue,
          q.userId = m.player2.userId ∧ q.priority = true) := by
  refine ⟨⟨?_, ?_⟩, ⟨?_, ?_⟩, ?_, ?_⟩
  · simp [handleGameCreationFailure]
  · simp [handleGameCreationFailure]
  · simp [handleGameCreationFailure]
  · simp [handleGameCreationFailure]
  · intro h1
    have he := requeueAttempt_of_ok env s m.player1 now h1
    refine ⟨createQueuedPlayer m.player1.userId m.player1.socketId m.player1.elo true now,
      ?_, rfl, rfl⟩
    show _ ∈ (handleGameCreationFailure env s m ec msg now).1.activeQueue
    simp only [handleGameCreationFailure]
    apply requeueAttempt_mem
    rw [he]
    exact List.mem_append_right _ (List.mem_singleton_self _)
  · intro h2 hu hs2
    have hok2 : requeueOk env (requeueAttempt env s m.player1 now).1 m.player2 = true :=
      requeueOk_after_attempt env s m.player1 m.player2 now h2 hu hs2
    have he := requeueAttempt_of_ok env (requeueAttempt env s m.player1 now).1
      m.player2 now hok2
    refine ⟨createQueuedPlayer m.player2.userId m.player2.socketId m.player2.elo true now,
      ?_, rfl, rfl⟩
    show _ ∈ (handleGameCreationFailure env s m ec msg now).1.activeQueue
    simp only [handleGameCreationFailure]
    rw [he]
    exact List.mem_append_right _ (List.mem_singleton_self _)
/-- Concrete instantiation of the game-creation-failure handling: from the
post-removal state both players of matchAB would be re-queued when their
checks pass; here player1 "A" passes and lands in the queue with priority. -/
theorem game_creation_failure_requeues_witness :
    requeueOk envNone
      { activeQueue := [], activeSockets := [], pendingMatches := [] } matchAB.player1 = true
    ∧ ∃ q ∈ (handleGameCreationFailure envNone
        { activeQueue := [], activeSockets := [], pendingMatches := [] }
        matchAB "GAME_ALREADY_EXISTS" "boom" 5).1.activeQueue,
      q.userId = matchAB.player1.userId ∧ q.priority = true :=
  ⟨by decide,
   (game_creation_failure_requeues envNone
     { activeQueue := [], activeSockets := [], pendingMatches := [] }
     matchAB "GAME_ALREADY_EXISTS" "boom" 5).2.2.1 (by decide)⟩
theorem cancelParticipant_pending (env : Env) (mid : String) (guilty : List String)
    (reason : String) (now : Int) (acc : MMState × List Effect) (p : MatchPlayer) :
    (cancelParticipant env mid guilty reason now acc p).1.pendingMatches
      = acc.1.pendingMatches := by
  unfold cancelParticipant
  by_cases hg : p.userId ∈ guilty
  · simp [hg]
  · simp [hg, requeueAttempt_pending]
theorem cancelParticipant_mem (env : Env) (mid : String) (guilty : List String)
    (reason : String) (now : Int) (acc : MMState × List Effect) (p : MatchPlayer)
    (q : QueuedPlayer) (h : q ∈ acc.1.activeQueue) :
    q ∈ (cancelParticipant env mid guilty reason now acc p).1.activeQueue := by
  unfold cancelParticipant
  by_cases hg : p.userId ∈ guilty
  · simpa [hg] using h
  · simpa [hg] using requeueAttempt_mem env acc.1 p now q h
theorem cancelMatch_pending (env : Env) (s : MMState) (m : PendingMatch)
    (faulty : List String) (reason : String) (now : Int) :
    (cancelMatch env s m faulty reason now).1.pendingMatches
      = s.pendingMatches.filter (fun x => x.matchId != m.matchId) := by
  unfold cancelMatch
  simp only [List.foldl]
  rw [cancelParticipant_pending, cancelParticipant_pending]
  rfl
theorem cancelMatch_findMatch (env : Env) (s : MMState) (m : PendingMatch)
    (faulty : List String) (reason : String) (now : Int) :
    findMatch (cancelMatch env s m faulty reason now).1 m.matchId = none := by
  unfold findMatch
  rw [cancelMatch_pending]
  exact findMatch_filter_self s m.matchId
theorem addPlayer_env_eq (env env2 : Env)
    (hpa : env2.penaltyActive = env.penaltyActive) :
    addPlayer env2 = addPlayer env := by
  funext s uid sock elo now pri
  unfold addPlayer
  rw [hpa]
theorem requeueAttempt_env_eq (env env2 : Env)
    (hpa : env2.penaltyActive = env.penaltyActive) :
    requeueAttempt env2 = requeueAttempt env := by
  funext s p now
  unfold requeueAttempt
  rw [addPlayer_env_eq env env2 hpa]
/-- Claim C5: cancelMatch (reached from any decline, or from timer expiry
with the still-PENDING participants faulty and reason "timeout") clears the
timer and removes the match, records a 300-second "Matchmaking abuse: "
penalty and emits match_cancelled(penalty_applied) for every faulty
participant, emits match_cancelled(opponent_declined) plus
queue_joined(priority true) to every non-faulty participant and re-queues
them with priority when their addPlayer checks pass, and a penalty-store
failure for player1 changes neither the resulting state nor the effects
processing player2. -/
theorem cancel_penalizes_and_requeues (env : Env) (s : MMState)
    (m : PendingMatch) (faulty : List String) (reason : String) (now : Int)
    (ht : m.hasTimer = true)
    (hne : m.player1.userId ≠ m.player2.userId) :
    ((cancelMatch env s m faulty reason now).2.head?
        = some (Effect.clearTimer m.matchId)
     ∧ findMatch (cancelMatch env s m faulty reason now).1 m.matchId = none)
    ∧ (∀ p ∈ [m.player1, m.player2], p.userId ∈ faulty →
        Effect.addPenalty p.userId 300 ("Matchmaking abuse: " ++ reason)
          (env.penaltyAddOk p.userId) ∈ (cancelMatch env s m faulty reason now).2
        ∧ Effect.emit p.socketId (.matchCancelled "penalty_applied" m.matchId)
            ∈ (cancelMatch env s m faulty reason now).2)
    ∧ (∀ p ∈ [m.player1, m.player2], p.userId ∉ faulty →
        Effect.emit p.socketId (.matchCancelled "opponent_declined" m.matchId)
          ∈ (cancelMatch env s m faulty reason now).2
        ∧ Effect.emit p.socketId (.queueJoined p.userId p.elo now true)
            ∈ (cancelMatch env s m faulty reason now).2)
    ∧ (m.player1.userId ∉ faulty →
        requeueOk env (removePending s m).1 m.player1 = true →
        ∃ q ∈ (cancelMatch env s m faulty reason now).1.activeQueue,
          q.userId = m.player1.userId ∧ q.priority = true)
    ∧ (m.player2.userId ∉ faulty →
        requeueOk env (removePending s m).1 m.player2 = true →
        m.player2.socketId ≠ m.player1.socketId →
        ∃ q ∈ (cancelMatch env s m faulty reason now).1.activeQueue,
          q.userId = m.player2.userId ∧ q.priority = true)
    ∧ (∀ b,
        (cancelMatch (updPenaltyAddOk env m.player1.userId b) s m faulty reason now).1
          = (cancelMatch env s m faulty reason now).1
        ∧ (cancelMatch (updPenaltyAddOk env m.player1.userId b) s m faulty
              reason now).2.filter (effectFor m.player2)
          = (cancelMatch env s m faulty reason now).2.filter (effectFor m.player2))
    ∧ (findMatch s m.matchId = some m →
        handleMatchTimeout env s m.matchId now
          = cancelMatch env s m
              ((if m.player1.status == .pending then [m.player1.userId] else []) ++
               (if m.player2.status == .pending then [m.player2.userId] else []))
              "timeout" now) := by
  have hne2 : m.player2.userId ≠ m.player1.userId := fun h => hne h.symm
  refine ⟨⟨?_, cancelMatch_findMatch env s m faulty reason now⟩, ?_, ?_, ?_, ?_, ?_, ?_⟩
  · by_cases g1 : m.player1.userId ∈ faulty <;>
      by_cases g2 : m.player2.userId ∈ faulty <;>
      simp [cancelMatch, cancelParticipant, removePending, List.foldl, g1, g2, ht]
  · intro p hp hfa
    simp only [List.mem_cons, List.not_mem_nil, or_false] at hp
    rcases hp with rfl | rfl
    · by_cases g2 : m.player2.userId ∈ faulty <;>
        constructor <;>
        simp [cancelMatch, cancelParticipant, removePending, List.foldl, hfa, g2,
          PENALTY_DURATION_SECONDS]
    · by_cases g1 : m.player1.userId ∈ faulty <;>
        constructor <;>
        simp [cancelMatch, cancelParticipant, removePending, List.foldl, hfa, g1,
          PENALTY_DURATION_SECONDS]
  · intro p hp hfa
    simp only [List.mem_cons, List.not_mem_nil, or_false] at hp
    rcases hp with rfl | rfl
    · by_cases g2 : m.player2.userId ∈ faulty <;>
        constructor <;>
        simp [cancelMatch, cancelParticipant, removePending, List.foldl, hfa, g2,
          PENALTY_DURATION_SECONDS]
    · by_cases g1 : m.player1.userId ∈ faulty <;>
        constructor <;>
        simp [cancelMatch, cancelParticipant, removePending, List.foldl, hfa, g1,
          PENALTY_DURATION_SECONDS]
  · intro hfa hok
    have he := requeueAttempt_of_ok env (removePending s m).1 m.player1 now hok
    refine ⟨createQueuedPlayer m.player1.userId m.player1.socketId m.player1.elo true now,
      ?_, rfl, rfl⟩
    have hstep1 : ((cancelParticipant env m.matchId faulty reason now
        ((removePending s m).1, (removePending s m).2) m.player1)).1
        = (requeueAttempt env (removePending s m).1 m.player1 now).1 := by
      simp [cancelParticipant, hfa]
    have hmem1 : createQueuedPlayer m.player1.userId m.player1.socketId m.player1.elo true now
        ∈ ((cancelParticipant env m.matchId faulty reason now
          ((removePending s m).1, (removePending s m).2) m.player1)).1.activeQueue := by
      rw [hstep1, he]
      exact List.mem_append_right _ (List.mem_singleton_self _)
    show _ ∈ (cancelMatch env s m faulty reason now).1.activeQueue
    unfold cancelMatch
    simp only [List.foldl]
    exact cancelParticipant_mem env m.matchId faulty reason now _ m.player2 _ hmem1
  · intro hfa hok hs2
    have hstep2ok : requeueOk env ((cancelParticipant env m.matchId faulty reason now
        ((removePending s m).1, (removePending s m).2) m.player1)).1 m.player2 = true := by
      by_cases g1 : m.player1.userId ∈ faulty
      · simpa [cancelParticipant, g1] using hok
      · have : ((cancelParticipant env m.matchId faulty reason now
            ((removePending s m).1, (removePending s m).2) m.player1)).1
            = (requeueAttempt env (removePending s m).1 m.player1 now).1 := by
          simp [cancelParticipant, g1]
        rw [this]
        exact requeueOk_after_attempt env (removePending s m).1 m.player1 m.player2 now
          hok hne2 hs2
    have he := requeueAttempt_of_ok env _ m.player2 now hstep2ok
    refine ⟨createQueuedPlayer m.player2.userId m.player2.socketId m.player2.elo true now,
      ?_, rfl, rfl⟩
    show _ ∈ (cancelMatch env s m faulty reason now).1.activeQueue
    unfold cancelMatch
    simp only [List.foldl]
    have hstep2 : ((cancelParticipant env m.matchId faulty reason now
        (cancelParticipant env m.matchId faulty reason now
          ((removePending s m).1, (removePending s m).2) m.player1) m.player2)).1
        = (requeueAttempt env ((cancelParticipant env m.matchId faulty reason now
            ((removePending s m).1, (removePending s m).2) m.player1)).1 m.player2 now).1 := by
      simp [cancelParticipant, hfa]
    rw [hstep2, he]
    exact List.mem_append_right _ (List.mem_singleton_self _)
  · intro b
    have hreq : requeueAttempt (updPenaltyAddOk env m.player1.userId b)
        = requeueAttempt env :=
      requeueAttempt_env_eq env _ rfl
    have hbe : (m.player1.userId == m.player2.userId) = false := by simpa using hne
    constructor
    · by_cases g1 : m.player1.userId ∈ faulty <;>
        by_cases g2 : m.player2.userId ∈ faulty <;>
        simp [cancelMatch, cancelParticipant, List.foldl, g1, g2, hreq]
    · have hproj : (updPenaltyAddOk env m.player1.userId b).penaltyAddOk m.player2.userId
          = env.penaltyAddOk m.player2.userId := by
        simp [updPenaltyAddOk, Function.update_noteq hne2]
      by_cases g1 : m.player1.userId ∈ faulty <;>
        by_cases g2 : m.player2.userId ∈ faulty <;>
        simp [cancelMatch, cancelParticipant, List.foldl, g1, g2, hreq, hproj,
          effectFor, hbe]
  · intro hfind
    unfold handleMatchTimeout
    rw [hfind]
/-- Concrete instantiation of the cancel path: B declines matchAB, so the
faulty participant A... here A declines: A is penalized with the 300-second
record and reason "Matchmaking abuse: declined". -/
theorem cancel_penalizes_and_requeues_witness :
    (matchAB.hasTimer = true ∧ matchAB.player1.userId ≠ matchAB.player2.userId)
    ∧ Effect.addPenalty "A" 300 "Matchmaking abuse: declined" true
        ∈ (cancelMatch envNone stAB matchAB ["A"] "declined" 5).2 :=
  ⟨⟨by decide, by decide⟩,
   ((cancel_penalizes_and_requeues envNone stAB matchAB ["A"] "declined" 5
      (by decide) (by decide)).2.1 matchAB.player1 (by decide) (by decide)).1⟩
theorem find?_ext {α : Type} (p q : α → Bool) (l : List α) (h : ∀ x, p x = q x) :
    l.find? p = l.find? q := by
  rw [funext h]
theorem findOpponent_eq_spec (a : QueuedPlayer) (rest : List QueuedPlayer)
    (matched : List String) :
    findOpponent a rest matched = specFindOpponent a rest matched := by
  unfold findOpponent specFindOpponent
  apply find?_ext
  intro b
  simp [le_min_iff, Bool.and_assoc]
theorem runTick_pairs (now : Int) (l : List QueuedPlayer) :
    ∀ (s : MMState) (matched supply : List String),
    (runTick now l s matched supply).2.2 = specPairs now l matched := by
  induction l with
  | nil => intro s matched supply; rfl
  | cons a rest ih =>
    intro s matched supply
    simp only [runTick, specPairs]
    by_cases hm : matched.contains a.userId = true
    · simp only [hm, if_true]
      exact ih s matched supply
    · simp only [Bool.not_eq_true] at hm
      simp only [hm, Bool.false_eq_true, if_false]
      rw [findOpponent_eq_spec]
      cases hf : specFindOpponent (expandRange now a) rest matched with
      | some b =>
        simp only [hf]
        rw [ih]
      | none =>
        simp only [hf]
        exact ih _ matched supply
theorem candidateLe_trans : ∀ a b c : QueuedPlayer, candidateLe a b = true →
    candidateLe b c = true → candidateLe a c = true := by
  intro a b c
  simp only [candidateLe]
  cases ha : a.priority <;> cases hb : b.priority <;> cases hc : c.priority <;>
    simp_all <;> omega
theorem candidateLe_total : ∀ a b : QueuedPlayer,
    (candidateLe a b || candidateLe b a) = true := by
  intro a b
  simp only [candidateLe]
  cases ha : a.priority <;> cases hb : b.priority <;> simp_all <;> omega
theorem candidateLe_to_specOrder (a b : QueuedPlayer)
    (h : candidateLe a b = true) : specOrder a b := by
  simp only [candidateLe] at h
  cases ha : a.priority <;> cases hb : b.priority <;>
    simp_all [specOrder]
/-- Claim C1: on a tick with at least two waiting players the candidates are
processed in the composite order — priority players first, then ascending
elo — and the pairs formed are exactly those of the spec's greedy rule: each
active player A (post range-expansion) is paired with the first later
not-yet-matched candidate B with
|eloA − eloB| ≤ min(BASE_TOLERANCE·rangeFactorA·(priorityA ? 2 : 1),
BASE_TOLERANCE·rangeFactorB); the times-2 priority bonus enters only the
active side's tolerance. -/
theorem matcher_tick_order_and_pairing (s : MMState) (now : Int)
    (supply : List String) (h2 : 2 ≤ s.activeQueue.length) :
    List.Pairwise specOrder (s.activeQueue.mergeSort candidateLe)
    ∧ (matchmakingLoop s now supply).2.2
        = specPairs now (s.activeQueue.mergeSort candidateLe) [] := by
  constructor
  · exact (List.sorted_mergeSort candidateLe_trans candidateLe_total
      s.activeQueue).imp (candidateLe_to_specOrder _ _)
  · unfold matchmakingLoop
    rw [if_neg (by omega)]
    exact runTick_pairs now _ s [] supply
/-- Concrete instantiation of the matcher-tick property on a two-player
queue. -/
theorem matcher_tick_order_and_pairing_witness :
    2 ≤ stAlias.activeQueue.length
    ∧ (matchmakingLoop stAlias 0 ["M1"]).2.2
        = specPairs 0 (stAlias.activeQueue.mergeSort candidateLe) [] :=
  ⟨by decide, (matcher_tick_order_and_pairing stAlias 0 ["M1"] (by decide)).2⟩
theorem find_setMatch (l : List PendingMatch) (m2 : PendingMatch) :
    (setMatch l m2).find? (fun x => x.matchId == m2.matchId) = some m2 := by
  induction l with
  | nil => simp [setMatch, List.find?]
  | cons x xs ih =>
    by_cases hx : (x.matchId == m2.matchId) = true
    · simp [setMatch, hx, List.find?]
    · simp only [setMatch, hx, Bool.false_eq_true, if_false]
      simp only [List.find?, hx]
      exact ih
theorem addPlayer_effects (env : Env) (s : MMState) (uid sock : String)
    (elo now : Int) (pri : Bool) (r : MMState × List Effect)
    (h : addPlayer env s uid sock elo now pri = .ok r) :
    ∃ s1, r.2 = [statsEffect s1] := by
  unfold addPlayer at h
  cases hp : env.penaltyActive uid <;> rw [hp] at h
  case some => cases h
  case none =>
    split_ifs at h
    all_goals cases h
    exact ⟨_, rfl⟩
theorem requeueAttempt_countP (env : Env) (s : MMState) (p : MatchPlayer)
    (now : Int) (f : Effect → Bool)
    (hf : ∀ n k, f (Effect.queueStats n k) = false) :
    (requeueAttempt env s p now).2.countP f = 0 := by
  unfold requeueAttempt
  cases h : addPlayer env s p.userId p.socketId p.elo now true with
  | error e => simp
  | ok r =>
    obtain ⟨s1, hr⟩ := addPlayer_effects env s p.userId p.socketId p.elo now true r h
    simp [hr, List.countP_cons, statsEffect, hf]
theorem countCreateGame_gameFailure (env : Env) (s : MMState) (m : PendingMatch)
    (ec msg : String) (now : Int) :
    countCreateGame (handleGameCreationFailure env s m ec msg now).2 = 0 := by
  unfold handleGameCreationFailure countCreateGame
  simp only [List.countP_append, List.countP_cons, List.countP_nil]
  rw [requeueAttempt_countP, requeueAttempt_countP] <;> simp
theorem countConfirmedTo_gameFailure (env : Env) (s : MMState) (m : PendingMatch)
    (ec msg : String) (now : Int) (sk : String) :
    countConfirmedTo sk (handleGameCreationFailure env s m ec msg now).2 = 0 := by
  unfold handleGameCreationFailure countConfirmedTo
  simp only [List.countP_append, List.countP_cons, List.countP_nil]
  rw [requeueAttempt_countP, requeueAttempt_countP] <;> simp
theorem finalize_counts (env : Env) (s : MMState) (mm : PendingMatch)
    (now : Int) (gr : GameResult) (sk : String) :
    countCreateGame (finalizeMatch env s mm now gr).2 = 1
    ∧ (∀ g msg, gr = .success g msg →
        countConfirmedTo sk (finalizeMatch env s mm now gr).2
          = (if mm.player1.socketId == sk then 1 else 0)
            + (if mm.player2.socketId == sk then 1 else 0))
    ∧ (∀ ec msg, gr = .failure ec msg →
        countConfirmedTo sk (finalizeMatch env s mm now gr).2 = 0) := by
  refine ⟨?_, ?_, ?_⟩
  · cases gr with
    | success g msg =>
      unfold finalizeMatch finalizeRemote removePending handleGameCreationSuccess
      by_cases ht : mm.hasTimer = true <;>
        simp [ht, countCreateGame, List.countP_append, List.countP_cons, statsEffect]
    | failure ec msg =>
      have h0 := countCreateGame_gameFailure env (removePending s mm).1 mm ec msg now
      unfold finalizeMatch finalizeRemote
      unfold countCreateGame at h0 ⊢
      simp only [List.countP_append, List.countP_cons, List.countP_nil, h0]
      by_cases ht : mm.hasTimer = true <;>
        simp [removePending, ht, statsEffect]
  · intro g msg hgr
    subst hgr
    unfold finalizeMatch finalizeRemote removePending handleGameCreationSuccess
    by_cases ht : mm.hasTimer = true <;>
      by_cases h1 : (mm.player1.socketId == sk) = true <;>
      by_cases h2 : (mm.player2.socketId == sk) = true <;>
      simp [ht, h1, h2, countConfirmedTo, List.countP_append, List.countP_cons,
        statsEffect]
  · intro ec msg hgr
    subst hgr
    have h0 := countConfirmedTo_gameFailure env (removePending s mm).1 mm ec msg now sk
    unfold finalizeMatch finalizeRemote
    unfold countConfirmedTo at h0 ⊢
    simp only [List.countP_append, List.countP_cons, List.countP_nil, h0]
    by_cases ht : mm.hasTimer = true <;>
      simp [removePending, ht, statsEffect]
theorem finalizeMatch_findMatch_none (env : Env) (s : MMState) (mm : PendingMatch)
    (now : Int) (gr : GameResult) :
    findMatch (finalizeMatch env s mm now gr).1 mm.matchId = none := by
  have hpend : (finalizeMatch env s mm now gr).1.pendingMatches
      = (removePending s mm).1.pendingMatches := by
    cases gr with
    | success g msg => rfl
    | failure ec msg =>
      simp only [finalizeMatch, finalizeRemote]
      exact handleGameCreationFailure_pending env (removePending s mm).1 mm ec msg now
  unfold findMatch
  rw [hpend]
  simp only [removePending]
  exact findMatch_filter_self s mm.matchId
theorem acceptMatch_notFound (env : Env) (s : MMState) (u mid : String)
    (now : Int) (gr : GameResult) (hf : findMatch s mid = none) :
    acceptMatch env s u mid now gr = .error .matchNotFound := by
  unfold acceptMatch
  rw [hf]
theorem acceptMatch_notParticipant (env : Env) (s : MMState) (u mid : String)
    (now : Int) (gr : GameResult) (mm : PendingMatch)
    (hf : findMatch s mid = some mm)
    (hu1 : mm.player1.userId ≠ u) (hu2 : mm.player2.userId ≠ u) :
    acceptMatch env s u mid now gr = .error .notParticipant := by
  unfold acceptMatch
  rw [hf]
  simp [hu1, hu2]
theorem acceptMatch_p1_noop (env : Env) (s : MMState) (u mid : String)
    (now : Int) (gr : GameResult) (mm : PendingMatch)
    (hf : findMatch s mid = some mm) (hu : mm.player1.userId = u)
    (hst : mm.player1.status ≠ .pending) :
    acceptMatch env s u mid now gr = .ok (s, []) := by
  unfold acceptMatch
  rw [hf]
  simp [hu, hst]
theorem acceptMatch_p2_noop (env : Env) (s : MMState) (u mid : String)
    (now : Int) (gr : GameResult) (mm : PendingMatch)
    (hf : findMatch s mid = some mm) (hu1 : mm.player1.userId ≠ u)
    (hu2 : mm.player2.userId = u) (hst : mm.player2.status ≠ .pending) :
    acceptMatch env s u mid now gr = .ok (s, []) := by
  unfold acceptMatch
  rw [hf]
  simp [hu1, hu2, hst]
theorem acceptMatch_p1_accept (env : Env) (s : MMState) (u mid : String)
    (now : Int) (gr : GameResult) (mm : PendingMatch)
    (hf : findMatch s mid = some mm) (hu : mm.player1.userId = u)
    (hst : mm.player1.status = .pending) :
    acceptMatch env s u mid now gr =
      (if (acceptP1 mm).player2.status == .accepted then
        .ok (finalizeMatch env (withSet s (acceptP1 mm)) (acceptP1 mm) now gr)
      else
        .ok (withSet s (acceptP1 mm), [])) := by
  unfold acceptMatch
  rw [hf]
  simp [hu, hst, acceptP1, withSet]
theorem acceptMatch_p2_accept (env : Env) (s : MMState) (u mid : String)
    (now : Int) (gr : GameResult) (mm : PendingMatch)
    (hf : findMatch s mid = some mm) (hu1 : mm.player1.userId ≠ u)
    (hu2 : mm.player2.userId = u) (hst : mm.player2.status = .pending) :
    acceptMatch env s u mid now gr =
      (if (acceptP2 mm).player1.status == .accepted then
        .ok (finalizeMatch env (withSet s (acceptP2 mm)) (acceptP2 mm) now gr)
      else
        .ok (withSet s (acceptP2 mm), [])) := by
  unfold acceptMatch
  rw [hf]
  simp [hu1, hu2, hst, acceptP2, withSet]
theorem runAccepts_absent (env : Env) (mid : String) (now : Int) (gr : GameResult) :
    ∀ (us : List String) (s : MMState), findMatch s mid = none →
    runAccepts env mid now gr us s = (s, []) := by
  intro us
  induction us with
  | nil => intro s _; rfl
  | cons u us2 ih =>
    intro s hf
    simp only [runAccepts, acceptMatch_notFound env s u mid now gr hf]
    simp [ih s hf]
theorem runAccepts_counts (env : Env) (mid : String) (now : Int) (gr : GameResult)
    (p1 p2 : MatchPlayer) (hne : p1.userId ≠ p2.userId)
    (hsock : p1.socketId ≠ p2.socketId) :
    ∀ (us : List String) (s : MMState) (mm : PendingMatch) (a1 a2 : Bool),
    ¬(a1 = true ∧ a2 = true) →
    findMatch s mid = some mm →
    mm.matchId = mid →
    mm.player1 = { p1 with status := if a1 then .accepted else .pending } →
    mm.player2 = { p2 with status := if a2 then .accepted else .pending } →
    countCreateGame (runAccepts env mid now gr us s).2
      = (if (a1 = true ∨ p1.userId ∈ us) ∧ (a2 = true ∨ p2.userId ∈ us) then 1 else 0)
    ∧ (gr.isSuccess = true →
       countConfirmedTo p1.socketId (runAccepts env mid now gr us s).2
        = (if (a1 = true ∨ p1.userId ∈ us) ∧ (a2 = true ∨ p2.userId ∈ us) then 1 else 0)
       ∧ countConfirmedTo p2.socketId (runAccepts env mid now gr us s).2
        = (if (a1 = true ∨ p1.userId ∈ us) ∧ (a2 = true ∨ p2.userId ∈ us) then 1 else 0)) := by
  intro us
  induction us with
  | nil =>
    intro s mm a1 a2 hna hf hmid hm1 hm2
    simp [runAccepts, countCreateGame, countConfirmedTo, hna]
  | cons u us2 ih =>
    intro s mm a1 a2 hna hf hmid hm1 hm2
    have hid1 : mm.player1.userId = p1.userId := by rw [hm1]
    have hid2 : mm.player2.userId = p2.userId := by rw [hm2]
    by_cases hu1 : p1.userId = u
    · have hp2u : p2.userId ≠ u := fun h => hne (hu1.trans h.symm)
      by_cases ha1 : a1 = true
      · -- duplicate accept by player1: no-op
        have hstep : acceptMatch env s u mid now gr = .ok (s, []) := by
          refine acceptMatch_p1_noop env s u mid now gr mm hf (hid1.trans hu1) ?_
          rw [hm1, ha1]
          simp
        have hrun : runAccepts env mid now gr (u :: us2) s
            = ((runAccepts env mid now gr us2 s).1,
               [] ++ (runAccepts env mid now gr us2 s).2) := by
          simp only [runAccepts, hstep]
        obtain ⟨ihc, ihf⟩ := ih s mm a1 a2 hna hf hmid hm1 hm2
        rw [hrun]
        refine ⟨?_, fun hsucc => ⟨?_, ?_⟩⟩
        · simp only [List.nil_append, ihc, ha1]
          simp [List.mem_cons, hp2u]
        · simp only [List.nil_append, (ihf hsucc).1, ha1]
          simp [List.mem_cons, hp2u]
        · simp only [List.nil_append, (ihf hsucc).2, ha1]
          simp [List.mem_cons, hp2u]
      · have ha1f : a1 = false := by simpa using ha1
        have hst1 : mm.player1.status = .pending := by
          rw [hm1, ha1f]
          simp
        have hm1acc : (acceptP1 mm).player1 = { p1 with status := .accepted } := by
          simp only [acceptP1]
          rw [hm1]
        have hm2acc : (acceptP1 mm).player2 = mm.player2 := rfl
        have hmidacc : (acceptP1 mm).matchId = mid := hmid
        by_cases ha2 : a2 = true
        · -- second accept: finalization fires exactly once
          have hboth : ((acceptP1 mm).player2.status == PStatus.accepted) = true := by
            rw [hm2acc, hm2, ha2]
            simp
          have hstep : acceptMatch env s u mid now gr
              = .ok (finalizeMatch env (withSet s (acceptP1 mm)) (acceptP1 mm) now gr) := by
            rw [acceptMatch_p1_accept env s u mid now gr mm hf (hid1.trans hu1) hst1,
              if_pos hboth]
          have habsent : findMatch
              (finalizeMatch env (withSet s (acceptP1 mm)) (acceptP1 mm) now gr).1 mid
              = none := by
            have := finalizeMatch_findMatch_none env (withSet s (acceptP1 mm))
              (acceptP1 mm) now gr
            rwa [hmidacc] at this
          have hrun : runAccepts env mid now gr (u :: us2) s
              = ((finalizeMatch env (withSet s (acceptP1 mm)) (acceptP1 mm) now gr).1,
                 (finalizeMatch env (withSet s (acceptP1 mm)) (acceptP1 mm) now gr).2
                   ++ []) := by
            simp only [runAccepts, hstep]
            rw [runAccepts_absent env mid now gr us2 _ habsent]
          have hcnt := finalize_counts env (withSet s (acceptP1 mm)) (acceptP1 mm)
            now gr p1.socketId
          have hcnt2 := finalize_counts env (withSet s (acceptP1 mm)) (acceptP1 mm)
            now gr p2.socketId
          have hcond : ((a1 = true ∨ p1.userId ∈ u :: us2)
              ∧ (a2 = true ∨ p2.userId ∈ u :: us2)) := by
            exact ⟨Or.inr (by simp [hu1]), Or.inl ha2⟩
          have hsk1 : ((acceptP1 mm).player1.socketId == p1.socketId) = true := by
            rw [hm1acc]; simp
          have hsk12 : ((acceptP1 mm).player2.socketId == p1.socketId) = false := by
            rw [hm2acc, hm2]
            simpa using fun h => hsock h.symm
          have hsk21 : ((acceptP1 mm).player1.socketId == p2.socketId) = false := by
            rw [hm1acc]
            simpa using hsock
          have hsk2 : ((acceptP1 mm).player2.socketId == p2.socketId) = true := by
            rw [hm2acc, hm2]; simp
          rw [hrun]
          refine ⟨?_, fun hsucc => ⟨?_, ?_⟩⟩
          · simp only [List.append_nil, hcnt.1, if_pos hcond]
          · cases gr with
            | success g msg =>
              simp only [List.append_nil, hcnt.2.1 g msg rfl, hsk1, hsk12, if_pos hcond]
              simp
            | failure ec msg => simp [GameResult.isSuccess] at hsucc
          · cases gr with
            | success g msg =>
              simp only [List.append_nil, hcnt2.2.1 g msg rfl, hsk21, hsk2, if_pos hcond]
              simp
            | failure ec msg => simp [GameResult.isSuccess] at hsucc
        · -- first accept by player1: status flips, no finalization yet
          have ha2f : a2 = false := by simpa using ha2
          have hnotboth : ((acceptP1 mm).player2.status == PStatus.accepted) = false := by
            rw [hm2acc, hm2, ha2f]
            simp
          have hstep : acceptMatch env s u mid now gr
              = .ok (withSet s (acceptP1 mm), []) := by
            rw [acceptMatch_p1_accept env s u mid now gr mm hf (hid1.trans hu1) hst1,
              if_neg (by simp [hnotboth])]
          have hfind2 : findMatch (withSet s (acceptP1 mm)) mid = some (acceptP1 mm) := by
            have := find_setMatch s.pendingMatches (acceptP1 mm)
            rw [hmidacc] at this
            exact this
          have hrun : runAccepts env mid now gr (u :: us2) s
              = ((runAccepts env mid now gr us2 (withSet s (acceptP1 mm))).1,
                 [] ++ (runAccepts env mid now gr us2 (withSet s (acceptP1 mm))).2) := by
            simp only [runAccepts, hstep]
          obtain ⟨ihc, ihf⟩ := ih (withSet s (acceptP1 mm)) (acceptP1 mm) true false
            (by simp) hfind2 hmidacc (by rw [hm1acc]; simp) (by rw [hm2acc, hm2, ha2f])
          rw [hrun]
          refine ⟨?_, fun hsucc => ⟨?_, ?_⟩⟩
          · simp only [List.nil_append, ihc, ha1f, ha2f]
            simp [List.mem_cons, hp2u, hu1]
          · simp only [List.nil_append, (ihf hsucc).1, ha1f, ha2f]
            simp [List.mem_cons, hp2u, hu1]
          · simp only [List.nil_append, (ihf hsucc).2, ha1f, ha2f]
            simp [List.mem_cons, hp2u, hu1]
    · by_cases hu2 : p2.userId = u
      · have hp1u : mm.player1.userId ≠ u := by rw [hid1]; exact hu1
        by_cases ha2 : a2 = true
        · -- duplicate accept by player2: no-op
          have hstep : acceptMatch env s u mid now gr = .ok (s, []) := by
            refine acceptMatch_p2_noop env s u mid now gr mm hf hp1u
              (hid2.trans hu2) ?_
            rw [hm2, ha2]
            simp
          have hrun : runAccepts env mid now gr (u :: us2) s
              = ((runAccepts env mid now gr us2 s).1,
                 [] ++ (runAccepts env mid now gr us2 s).2) := by
            simp only [runAccepts, hstep]
          obtain ⟨ihc, ihf⟩ := ih s mm a1 a2 hna hf hmid hm1 hm2
          rw [hrun]
          refine ⟨?_, fun hsucc => ⟨?_, ?_⟩⟩
          · simp only [List.nil_append, ihc, ha2]
            simp [List.mem_cons, hu1]
          · simp only [List.nil_append, (ihf hsucc).1, ha2]
            simp [List.mem_cons, hu1]
          · simp only [List.nil_append, (ihf hsucc).2, ha2]
            simp [List.mem_cons, hu1]
        · have ha2f : a2 = false := by simpa using ha2
          have hst2 : mm.player2.status = .pending := by
            rw [hm2, ha2f]
            simp
          have hm2acc : (acceptP2 mm).player2 = { p2 with status := .accepted } := by
            simp only [acceptP2]
            rw [hm2]
          have hm1acc : (acceptP2 mm).player1 = mm.player1 := rfl
          have hmidacc : (acceptP2 mm).matchId = mid := hmid
          by_cases ha1 : a1 = true
          · -- second accept: finalization fires exactly once
            have hboth : ((acceptP2 mm).player1.status == PStatus.accepted) = true := by
              rw [hm1acc, hm1, ha1]
              simp
            have hstep : acceptMatch env s u mid now gr
                = .ok (finalizeMatch env (withSet s (acceptP2 mm)) (acceptP2 mm) now gr) := by
              rw [acceptMatch_p2_accept env s u mid now gr mm hf hp1u
                (hid2.trans hu2) hst2, if_pos hboth]
            have habsent : findMatch
                (finalizeMatch env (withSet s (acceptP2 mm)) (acceptP2 mm) now gr).1 mid
                = none := by
              have := finalizeMatch_findMatch_none env (withSet s (acceptP2 mm))
                (acceptP2 mm) now gr
              rwa [hmidacc] at this
            have hrun : runAccepts env mid now gr (u :: us2) s
                = ((finalizeMatch env (withSet s (acceptP2 mm)) (acceptP2 mm) now gr).1,
                   (finalizeMatch env (withSet s (acceptP2 mm)) (acceptP2 mm) now gr).2
                     ++ []) := by
              simp only [runAccepts, hstep]
              rw [runAccepts_absent env mid now gr us2 _ habsent]
            have hcnt := finalize_counts env (withSet s (acceptP2 mm)) (acceptP2 mm)
              now gr p1.socketId
            have hcnt2 := finalize_counts env (withSet s (acceptP2 mm)) (acceptP2 mm)
              now gr p2.socketId
            have hcond : ((a1 = true ∨ p1.userId ∈ u :: us2)
                ∧ (a2 = true ∨ p2.userId ∈ u :: us2)) := by
              exact ⟨Or.inl ha1, Or.inr (by simp [hu2])⟩
            have hsk1 : ((acceptP2 mm).player1.socketId == p1.socketId) = true := by
              rw [hm1acc, hm1]; simp
            have hsk12 : ((acceptP2 mm).player2.socketId == p1.socketId) = false := by
              rw [hm2acc]
              simpa using fun h => hsock h.symm
            have hsk21 : ((acceptP2 mm).player1.socketId == p2.socketId) = false := by
              rw [hm1acc, hm1]
              simpa using hsock
            have hsk2 : ((acceptP2 mm).player2.socketId == p2.socketId) = true := by
              rw [hm2acc]; simp
            rw [hrun]
            refine ⟨?_, fun hsucc => ⟨?_, ?_⟩⟩
            · simp only [List.append_nil, hcnt.1, if_pos hcond]
            · cases gr with
              | success g msg =>
                simp only [List.append_nil, hcnt.2.1 g msg rfl, hsk1, hsk12, if_pos hcond]
                simp
              | failure ec msg => simp [GameResult.isSuccess] at hsucc
            · cases gr with
              | success g msg =>
                simp only [List.append_nil, hcnt2.2.1 g msg rfl, hsk21, hsk2, if_pos hcond]
                simp
              | failure ec msg => simp [GameResult.isSuccess] at hsucc
          · -- first accept by player2: status flips, no finalization yet
            have ha1f : a1 = false := by simpa using ha1
            have hnotboth : ((acceptP2 mm).player1.status == PStatus.accepted) = false := by
              rw [hm1acc, hm1, ha1f]
              simp
            have hstep : acceptMatch env s u mid now gr
                = .ok (withSet s (acceptP2 mm), []) := by
              rw [acceptMatch_p2_accept env s u mid now gr mm hf hp1u
                (hid2.trans hu2) hst2, if_neg (by simp [hnotboth])]
            have hfind2 : findMatch (withSet s (acceptP2 mm)) mid = some (acceptP2 mm) := by
              have := find_setMatch s.pendingMatches (acceptP2 mm)
              rw [hmidacc] at this
              exact this
            have hrun : runAccepts env mid now gr (u :: us2) s
                = ((runAccepts env mid now gr us2 (withSet s (acceptP2 mm))).1,
                   [] ++ (runAccepts env mid now gr us2 (withSet s (acceptP2 mm))).2) := by
              simp only [runAccepts, hstep]
            obtain ⟨ihc, ihf⟩ := ih (withSet s (acceptP2 mm)) (acceptP2 mm) false true
              (by simp) hfind2 hmidacc (by rw [hm1acc, hm1, ha1f]) (by rw [hm2acc]; simp)
            rw [hrun]
            refine ⟨?_, fun hsucc => ⟨?_, ?_⟩⟩
            · simp only [List.nil_append, ihc, ha1f, ha2f]
              simp [List.mem_cons, hu1, hu2]
            · simp only [List.nil_append, (ihf hsucc).1, ha1f, ha2f]
              simp [List.mem_cons, hu1, hu2]
            · simp only [List.nil_append, (ihf hsucc).2, ha1f, ha2f]
              simp [List.mem_cons, hu1, hu2]
      · -- accept by a non-participant: a caught error, nothing changes
        have hstep : acceptMatch env s u mid now gr = .error .notParticipant :=
          acceptMatch_notParticipant env s u mid now gr mm hf
            (by rw [hid1]; exact hu1) (by rw [hid2]; exact hu2)
        have hrun : runAccepts env mid now gr (u :: us2) s
            = ((runAccepts env mid now gr us2 s).1,
               [] ++ (runAccepts env mid now gr us2 s).2) := by
          simp only [runAccepts, hstep]
        obtain ⟨ihc, ihf⟩ := ih s mm a1 a2 hna hf hmid hm1 hm2
        rw [hrun]
        refine ⟨?_, fun hsucc => ⟨?_, ?_⟩⟩
        · simp only [List.nil_append, ihc]
          simp [List.mem_cons, hu1, hu2]
        · simp only [List.nil_append, (ihf hsucc).1]
          simp [List.mem_cons, hu1, hu2]
        · simp only [List.nil_append, (ihf hsucc).2]
          simp [List.mem_cons, hu1, hu2]
/-- Claim C3: an accept by a participant whose status is not PENDING is a
no-op (idempotent duplicate), and over any sequence of accept_match calls on
a pending match (duplicates included) finalization happens at most once:
createGame is invoked exactly once when both participants appear in the
sequence and never otherwise, and on a successful creation each participant's
socket receives exactly one match_confirmed. -/
theorem accept_idempotent_finalize_once (env : Env) (s : MMState)
    (m : PendingMatch) (mid : String) (now : Int) (gr : GameResult)
    (us : List String)
    (hf : findMatch s mid = some m) (hmid : m.matchId = mid)
    (hp1 : m.player1.status = .pending) (hp2 : m.player2.status = .pending)
    (hne : m.player1.userId ≠ m.player2.userId)
    (hsock : m.player1.socketId ≠ m.player2.socketId) :
    (∀ (s2 : MMState) (mm : PendingMatch) (u : String),
      findMatch s2 mid = some mm →
      ((mm.player1.userId = u ∧ mm.player1.status ≠ .pending)
        ∨ (mm.player1.userId ≠ u ∧ mm.player2.userId = u
            ∧ mm.player2.status ≠ .pending)) →
      acceptMatch env s2 u mid now gr = .ok (s2, []))
    ∧ countCreateGame (runAccepts env mid now gr us s).2
        = (if m.player1.userId ∈ us ∧ m.player2.userId ∈ us then 1 else 0)
    ∧ (gr.isSuccess = true →
        countConfirmedTo m.player1.socketId (runAccepts env mid now gr us s).2
          = (if m.player1.userId ∈ us ∧ m.player2.userId ∈ us then 1 else 0)
        ∧ countConfirmedTo m.player2.socketId (runAccepts env mid now gr us s).2
          = (if m.player1.userId ∈ us ∧ m.player2.userId ∈ us then 1 else 0)) := by
  have hm1 : m.player1 = { m.player1 with status :=
      if (false : Bool) = true then PStatus.accepted else PStatus.pending } := by
    rw [if_neg]
    · rw [← hp1]
    · simp
  have hm2 : m.player2 = { m.player2 with status :=
      if (false : Bool) = true then PStatus.accepted else PStatus.pending } := by
    rw [if_neg]
    · rw [← hp2]
    · simp
  obtain ⟨hc, hcf⟩ := runAccepts_counts env mid now gr m.player1 m.player2 hne hsock
    us s m false false (by simp) hf hmid hm1 hm2
  refine ⟨?_, ?_, ?_⟩
  · intro s2 mm u hf2 hcase
    rcases hcase with ⟨hu, hst⟩ | ⟨hu1, hu2, hst⟩
    · exact acceptMatch_p1_noop env s2 u mid now gr mm hf2 hu hst
    · exact acceptMatch_p2_noop env s2 u mid now gr mm hf2 hu1 hu2 hst
  · rw [hc]
    simp
  · intro hsucc
    obtain ⟨h1, h2⟩ := hcf hsucc
    constructor
    · rw [h1]
      simp
    · rw [h2]
      simp
/-- Concrete instantiation of the finalize-once property: A accepts twice,
then B accepts; createGame is called exactly once. -/
theorem accept_idempotent_finalize_once_witness :
    findMatch stABp "M1" = some matchABp
    ∧ countCreateGame (runAccepts envNone "M1" 0 (GameResult.success "g" "ok")
        ["A", "A", "B"] stABp).2
      = (if matchABp.player1.userId ∈ ["A", "A", "B"]
            ∧ matchABp.player2.userId ∈ ["A", "A", "B"] then 1 else 0) :=
  ⟨by decide,
   (accept_idempotent_finalize_once envNone stABp matchABp "M1" 0
     (.success "g" "ok") ["A", "A", "B"] (by decide) (by decide) (by decide)
     (by decide) (by decide) (by decide)).2.1⟩
theorem not_mem_queueUserIds {q : List QueuedPlayer} {uid : String}
    (h : queueHas q uid = false) : uid ∉ q.map (fun p => p.userId) := by
  simp only [queueHas, List.any_eq_false] at h
  intro hm
  obtain ⟨p, hp, he⟩ := List.mem_map.1 hm
  have := h p hp
  simp [he] at this
theorem not_mem_pendingUserIds {s : MMState} {uid : String}
    (h : isUserInPendingMatch s uid = false) : uid ∉ pendingUserIds s := by
  simp only [isUserInPendingMatch, List.any_eq_false] at h
  intro hm
  unfold pendingUserIds at hm
  rw [List.mem_flatMap] at hm
  obtain ⟨x, hx, hin⟩ := hm
  have hnx := h x hx
  simp only [Bool.or_eq_true, beq_iff_eq, not_or] at hnx
  simp only [List.mem_cons, List.not_mem_nil, or_false] at hin
  rcases hin with he | he
  · exact hnx.1 he.symm
  · exact hnx.2 he.symm
theorem addPlayer_ok_conditions (env : Env) (s : MMState) (uid sock : String)
    (elo now : Int) (pri : Bool) (r : MMState × List Effect)
    (h : addPlayer env s uid sock elo now pri = .ok r) :
    env.penaltyActive uid = none ∧ queueHas s.activeQueue uid = false
    ∧ isUserInPendingMatch s uid = false
    ∧ s.activeSockets.contains sock = false
    ∧ r.1 = { s with
        activeQueue := s.activeQueue ++ [createQueuedPlayer uid sock elo pri now],
        activeSockets := socketAdd s.activeSockets sock } := by
  unfold addPlayer at h
  cases hp : env.penaltyActive uid <;> rw [hp] at h
  case some => cases h
  case none =>
    split_ifs at h with h1 h2 h3
    all_goals cases h
    exact ⟨rfl, by simpa using h1, by simpa using h2, by simpa using h3, rfl⟩
theorem addPlayer_usersOnce (env : Env) (s : MMState) (uid sock : String)
    (elo now : Int) (pri : Bool) (h : UsersOnce s) :
    UsersOnce (stateAfter s (addPlayer env s uid sock elo now pri)) := by
  cases hr : addPlayer env s uid sock elo now pri with
  | error e => simpa [stateAfter] using h
  | ok r =>
    obtain ⟨_, h1, h2, _, hst⟩ := addPlayer_ok_conditions env s uid sock elo now pri r hr
    simp only [stateAfter]
    rw [hst]
    unfold UsersOnce queueUserIds pendingUserIds at h ⊢
    simp only [List.map_append]
    have hform : (s.activeQueue.map (fun p => p.userId)
          ++ [createQueuedPlayer uid sock elo pri now].map (fun p => p.userId))
          ++ s.pendingMatches.flatMap (fun m => [m.player1.userId, m.player2.userId])
        = s.activeQueue.map (fun p => p.userId)
          ++ uid :: s.pendingMatches.flatMap (fun m => [m.player1.userId, m.player2.userId]) := by
      simp [createQueuedPlayer]
    rw [hform, List.nodup_middle, List.nodup_cons]
    refine ⟨?_, h⟩
    rw [List.mem_append]
    rintro (hm | hm)
    · exact not_mem_queueUserIds h1 hm
    · exact not_mem_pendingUserIds h2 hm
theorem requeueAttempt_usersOnce (env : Env) (s : MMState) (p : MatchPlayer)
    (now : Int) (h : UsersOnce s) :
    UsersOnce (requeueAttempt env s p now).1 := by
  rw [requeueAttempt_fst]
  exact addPlayer_usersOnce env s p.userId p.socketId p.elo now true h
theorem flatMap_filter_sublist (l : List PendingMatch) (p : PendingMatch → Bool)
    (f : PendingMatch → List String) :
    List.Sublist ((l.filter p).flatMap f) (l.flatMap f) := by
  induction l with
  | nil => simp
  | cons x xs ih =>
    by_cases hx : p x = true
    · simpa [List.filter_cons, hx] using List.Sublist.append_left ih (f x)
    · simp only [List.filter_cons, hx, Bool.false_eq_true, if_false, List.flatMap_cons]
      exact ih.trans (List.sublist_append_right _ _)
theorem removePending_usersOnce (s : MMState) (m : PendingMatch)
    (h : UsersOnce s) : UsersOnce (removePending s m).1 := by
  unfold UsersOnce queueUserIds pendingUserIds at h ⊢
  refine List.Nodup.sublist ?_ h
  exact List.Sublist.append (List.Sublist.refl _) (flatMap_filter_sublist _ _ _)
theorem pendingUserIds_setMatch (l : List PendingMatch) (mm m2 : PendingMatch)
    (hf : l.find? (fun x => x.matchId == m2.matchId) = some mm)
    (h1 : mm.player1.userId = m2.player1.userId)
    (h2 : mm.player2.userId = m2.player2.userId) :
    (setMatch l m2).flatMap (fun x => [x.player1.userId, x.player2.userId])
      = l.flatMap (fun x => [x.player1.userId, x.player2.userId]) := by
  induction l with
  | nil => cases hf
  | cons x xs ih =>
    by_cases hx : (x.matchId == m2.matchId) = true
    · have hxm : mm = x := by
        simp only [List.find?, hx] at hf
        exact (Option.some.injEq _ _ ▸ hf : x = mm).symm
      subst hxm
      simp only [setMatch, hx, if_true, List.flatMap_cons]
      rw [← h1, ← h2]
    · have hf2 : xs.find? (fun y => y.matchId == m2.matchId) = some mm := by
        simpa [List.find?, hx] using hf
      simp only [setMatch, hx, Bool.false_eq_true, if_false, List.flatMap_cons]
      rw [ih hf2]
theorem withSet_usersOnce (s : MMState) (mm m2 : PendingMatch)
    (hf : s.pendingMatches.find? (fun x => x.matchId == m2.matchId) = some mm)
    (h1 : mm.player1.userId = m2.player1.userId)
    (h2 : mm.player2.userId = m2.player2.userId)
    (h : UsersOnce s) : UsersOnce (withSet s m2) := by
  unfold UsersOnce queueUserIds pendingUserIds at h ⊢
  simpa [withSet, pendingUserIds_setMatch s.pendingMatches mm m2 hf h1 h2] using h
theorem gameFailure_usersOnce (env : Env) (s : MMState) (m : PendingMatch)
    (ec msg : String) (now : Int) (h : UsersOnce s) :
    UsersOnce (handleGameCreationFailure env s m ec msg now).1 := by
  unfold handleGameCreationFailure
  exact requeueAttempt_usersOnce env _ m.player2 now
    (requeueAttempt_usersOnce env s m.player1 now h)
theorem finalizeMatch_usersOnce (env : Env) (s : MMState) (mm : PendingMatch)
    (now : Int) (gr : GameResult) (h : UsersOnce s) :
    UsersOnce (finalizeMatch env s mm now gr).1 := by
  have h0 : UsersOnce (removePending s mm).1 := removePending_usersOnce s mm h
  cases gr with
  | success g msg => exact h0
  | failure ec msg =>
    simp only [finalizeMatch, finalizeRemote]
    exact gameFailure_usersOnce env _ mm ec msg now h0
theorem cancelMatch_usersOnce (env : Env) (s : MMState) (m : PendingMatch)
    (faulty : List String) (reason : String) (now : Int) (h : UsersOnce s) :
    UsersOnce (cancelMatch env s m faulty reason now).1 := by
  unfold cancelMatch
  simp only [List.foldl]
  have h0 : UsersOnce (removePending s m).1 := removePending_usersOnce s m h
  have step : ∀ (acc : MMState × List Effect) (p : MatchPlayer), UsersOnce acc.1 →
      UsersOnce (cancelParticipant env m.matchId faulty reason now acc p).1 := by
    intro acc p hacc
    unfold cancelParticipant
    by_cases hg : p.userId ∈ faulty
    · simpa [hg] using hacc
    · simpa [hg] using requeueAttempt_usersOnce env acc.1 p now hacc
  exact step _ m.player2 (step _ m.player1 h0)
theorem acceptMatch_usersOnce (env : Env) (s : MMState) (u mid : String)
    (now : Int) (gr : GameResult) (h : UsersOnce s) :
    UsersOnce (stateAfter s (acceptMatch env s u mid now gr)) := by
  cases hf : findMatch s mid with
  | none => rw [acceptMatch_notFound env s u mid now gr hf]; exact h
  | some mm =>
    have hfm : s.pendingMatches.find? (fun x => x.matchId == mid) = some mm := hf
    have hmid : (mm.matchId == mid) = true := by
      have h5 := List.find?_some hfm
      simpa using h5
    by_cases hu1 : mm.player1.userId = u
    · by_cases hst1 : mm.player1.status = .pending
      · have hfm1 : s.pendingMatches.find?
            (fun x => x.matchId == (acceptP1 mm).matchId) = some mm := by
          have : (acceptP1 mm).matchId = mid := by simpa using hmid
          rw [this]
          exact hfm
        have hset : UsersOnce (withSet s (acceptP1 mm)) :=
          withSet_usersOnce s mm (acceptP1 mm) hfm1 rfl rfl h
        rw [acceptMatch_p1_accept env s u mid now gr mm hf hu1 hst1]
        by_cases hb : ((acceptP1 mm).player2.status == PStatus.accepted) = true
        · rw [if_pos hb]
          simp only [stateAfter]
          exact finalizeMatch_usersOnce env _ (acceptP1 mm) now gr hset
        · rw [if_neg hb]
          simpa [stateAfter] using hset
      · rw [acceptMatch_p1_noop env s u mid now gr mm hf hu1 hst1]
        exact h
    · by_cases hu2 : mm.player2.userId = u
      · by_cases hst2 : mm.player2.status = .pending
        · have hfm2 : s.pendingMatches.find?
              (fun x => x.matchId == (acceptP2 mm).matchId) = some mm := by
            have : (acceptP2 mm).matchId = mid := by simpa using hmid
            rw [this]
            exact hfm
          have hset : UsersOnce (withSet s (acceptP2 mm)) :=
            withSet_usersOnce s mm (acceptP2 mm) hfm2 rfl rfl h
          rw [acceptMatch_p2_accept env s u mid now gr mm hf hu1 hu2 hst2]
          by_cases hb : ((acceptP2 mm).player1.status == PStatus.accepted) = true
          · rw [if_pos hb]
            simp only [stateAfter]
            exact finalizeMatch_usersOnce env _ (acceptP2 mm) now gr hset
          · rw [if_neg hb]
            simpa [stateAfter] using hset
        · rw [acceptMatch_p2_noop env s u mid now gr mm hf hu1 hu2 hst2]
          exact h
      · rw [acceptMatch_notParticipant env s u mid now gr mm hf hu1 hu2]
        exact h
theorem declineMatch_usersOnce (env : Env) (s : MMState) (u mid : String)
    (now : Int) (h : UsersOnce s) :
    UsersOnce (stateAfter s (declineMatch env s u mid now)) := by
  unfold declineMatch
  cases hf : findMatch s mid with
  | none => exact h
  | some mm =>
    by_cases hp : (mm.player1.userId != u && mm.player2.userId != u) = true
    · simpa [hp, stateAfter] using h
    · simp only [hp, Bool.false_eq_true, if_false]
      simpa [stateAfter] using cancelMatch_usersOnce env s mm [u] "declined" now h
theorem handleMatchTimeout_usersOnce (env : Env) (s : MMState) (mid : String)
    (now : Int) (h : UsersOnce s) :
    UsersOnce (handleMatchTimeout env s mid now).1 := by
  unfold handleMatchTimeout
  cases hf : findMatch s mid with
  | none => exact h
  | some mm => exact cancelMatch_usersOnce env s mm _ "timeout" now h
theorem removePlayer_usersOnce (s : MMState) (idf : String) (h : UsersOnce s) :
    UsersOnce (removePlayer s idf).1 := by
  unfold removePlayer
  cases hf : s.activeQueue.find? (fun p => p.userId ==
      (if queueHas s.activeQueue idf then idf
       else match s.activeQueue.find? (fun p => p.socketId == idf) with
            | some p => p.userId
            | none => idf)) with
  | none => simpa [hf] using h
  | some p =>
    simp only [hf]
    unfold UsersOnce queueUserIds pendingUserIds at h ⊢
    simp only [queueDelete]
    refine List.Nodup.sublist ?_ h
    exact List.Sublist.append (List.Sublist.map _ (List.filter_sublist _))
      (List.Sublist.refl _)
theorem queueUserIds_writeBack (q : List QueuedPlayer) (p : QueuedPlayer) :
    (writeBack q p).map (fun x => x.userId) = q.map (fun x => x.userId) := by
  unfold writeBack
  rw [List.map_map]
  apply List.map_congr_left
  intro x _
  by_cases hx : (x.userId == p.userId) = true
  · have he : x.userId = p.userId := by simpa using hx
    simp [Function.comp, hx, he]
  · simp [Function.comp, hx]
theorem queueUserIds_queueDelete (q : List QueuedPlayer) (t : String) :
    (queueDelete q t).map (fun x => x.userId)
      = (q.map (fun x => x.userId)).filter (fun x => x != t) := by
  unfold queueDelete
  induction q with
  | nil => rfl
  | cons x xs ih =>
    by_cases hx : (x.userId != t) = true
    · simp [List.filter_cons, hx, ih]
    · simp [List.filter_cons, hx, ih]
theorem handleMatchFound_ids (s : MMState) (p1 p2 : QueuedPlayer) (mid : String)
    (now : Int) :
    queueUserIds (handleMatchFound s p1 p2 mid now).1
      = ((queueUserIds s).filter (fun x => x != p1.userId)).filter
          (fun x => x != p2.userId)
    ∧ pendingUserIds (handleMatchFound s p1 p2 mid now).1
      = pendingUserIds s ++ [p1.userId, p2.userId] := by
  constructor
  · unfold handleMatchFound queueUserIds
    simp only [queueUserIds_queueDelete]
  · unfold handleMatchFound pendingUserIds
    simp [List.flatMap_append]
theorem handleMatchFound_usersOnce (s : MMState) (p1 p2 : QueuedPlayer)
    (mid : String) (now : Int) (h : UsersOnce s)
    (ha : p1.userId ∉ pendingUserIds s) (hb : p2.userId ∉ pendingUserIds s)
    (hab : p1.userId ≠ p2.userId) :
    UsersOnce (handleMatchFound s p1 p2 mid now).1 := by
  obtain ⟨hq, hp⟩ := handleMatchFound_ids s p1 p2 mid now
  unfold UsersOnce
  rw [hq, hp]
  unfold UsersOnce at h
  rw [List.nodup_append] at h ⊢
  obtain ⟨h1, h2, h3⟩ := h
  refine ⟨?_, ?_, ?_⟩
  · exact ((h1.filter _).filter _)
  · rw [List.nodup_append]
    refine ⟨h2, by simp [hab], ?_⟩
    intro x hx
    simp only [List.mem_cons, List.not_mem_nil, or_false]
    rintro (rfl | rfl)
    · exact ha hx
    · exact hb hx
  · intro x hx
    rw [List.mem_filter] at hx
    obtain ⟨hx1, hxb⟩ := hx
    rw [List.mem_filter] at hx1
    obtain ⟨hx0, hxa⟩ := hx1
    rw [List.mem_append]
    rintro (hm | hm)
    · exact h3 hx0 hm
    · simp only [List.mem_cons, List.not_mem_nil, or_false] at hm
      rcases hm with rfl | rfl
      · simp at hxa
      · simp at hxb
theorem runTick_usersOnce (now : Int) (l : List QueuedPlayer) :
    ∀ (s : MMState) (matched supply : List String),
    UsersOnce s →
    (∀ p ∈ l, matched.contains p.userId = false →
      p.userId ∈ queueUserIds s ∧ p.userId ∉ pendingUserIds s) →
    (l.map (fun p => p.userId)).Nodup →
    UsersOnce (runTick now l s matched supply).1 := by
  induction l with
  | nil => intro s matched supply h _ _; exact h
  | cons a rest ih =>
    intro s matched supply h hsnap hnd
    simp only [List.map_cons, List.nodup_cons] at hnd
    obtain ⟨hnda, hndr⟩ := hnd
    simp only [runTick]
    by_cases hm : matched.contains a.userId = true
    · simp only [hm, if_true]
      exact ih s matched supply h
        (fun p hp => hsnap p (List.mem_cons_of_mem a hp)) hndr
    · rw [Bool.not_eq_true] at hm
      simp only [hm, Bool.false_eq_true, if_false]
      have hids : queueUserIds { s with
          activeQueue := writeBack s.activeQueue (expandRange now a) }
          = queueUserIds s := by
        unfold queueUserIds
        rw [queueUserIds_writeBack]
      have h1 : UsersOnce { s with
          activeQueue := writeBack s.activeQueue (expandRange now a) } := by
        unfold UsersOnce
        rw [hids]
        exact h
      have hsnap1 : ∀ p ∈ (a :: rest), matched.contains p.userId = false →
          p.userId ∈ queueUserIds { s with
            activeQueue := writeBack s.activeQueue (expandRange now a) }
          ∧ p.userId ∉ pendingUserIds s := by
        intro p hp hpm
        rw [hids]
        exact hsnap p hp hpm
      cases hfo : findOpponent (expandRange now a) rest matched with
      | none =>
        simp only [hfo]
        exact ih _ matched supply h1
          (fun p hp hpm => hsnap1 p (List.mem_cons_of_mem a hp) hpm) hndr
      | some b =>
        simp only [hfo]
        have hbprop := List.find?_some hfo
        have hbmem := List.mem_of_find?_eq_some hfo
        have hbunm : matched.contains b.userId = false := by
          simp only [Bool.and_eq_true, Bool.not_eq_true'] at hbprop
          simpa using hbprop.1.1
        have haid : (expandRange now a).userId = a.userId := by
          unfold expandRange
          split <;> rfl
        have hane : a.userId ≠ b.userId := by
          intro he
          exact hnda (he ▸ List.mem_map_of_mem (fun p => p.userId) hbmem)
        obtain ⟨haq, hap⟩ := hsnap1 a (List.mem_cons_self a rest) hm
        obtain ⟨hbq, hbp⟩ := hsnap1 b (List.mem_cons_of_mem a hbmem) hbunm
        have h2 : UsersOnce (handleMatchFound
            { s with activeQueue := writeBack s.activeQueue (expandRange now a) }
            (expandRange now a) b (supply.headD "") now).1 := by
          refine handleMatchFound_usersOnce _ _ _ _ _ h1 ?_ ?_ ?_
          · rw [haid]; exact hap
          · exact hbp
          · rw [haid]; exact hane
        have hids2 := handleMatchFound_ids
          { s with activeQueue := writeBack s.activeQueue (expandRange now a) }
          (expandRange now a) b (supply.headD "") now
        refine ih _ _ supply.tail h2 ?_ hndr
        intro p hp hpm
        simp only [List.contains_cons, Bool.or_eq_false_iff] at hpm
        obtain ⟨hpa, hpm2⟩ := hpm
        obtain ⟨hpb, hpm3⟩ := hpm2
        have hpane : p.userId ≠ a.userId := by simpa using hpa
        have hpbne : p.userId ≠ b.userId := by simpa using hpb
        obtain ⟨hpq, hpp⟩ := hsnap1 p (List.mem_cons_of_mem a hp) hpm3
        constructor
        · rw [hids2.1]
          rw [List.mem_filter, List.mem_filter]
          refine ⟨⟨hpq, ?_⟩, ?_⟩
          · rw [haid]; simpa using hpane
          · simpa using hpbne
        · rw [hids2.2]
          rw [List.mem_append]
          rintro (hmm | hmm)
          · exact hpp hmm
          · simp only [List.mem_cons, List.not_mem_nil, or_false] at hmm
            rcases hmm with he | he
            · exact hpane (by rw [he, haid])
            · exact hpbne he
theorem matchmakingLoop_usersOnce (s : MMState) (now : Int) (supply : List String)
    (h : UsersOnce s) : UsersOnce (matchmakingLoop s now supply).1 := by
  unfold matchmakingLoop
  by_cases hlen : s.activeQueue.length < 2
  · simpa [hlen] using h
  · simp only [hlen, if_false]
    refine runTick_usersOnce now _ s [] supply h ?_ ?_
    · intro p hp _
      have hpm : p ∈ s.activeQueue :=
        (List.mergeSort_perm s.activeQueue candidateLe).mem_iff.mp hp
      constructor
      · exact List.mem_map_of_mem _ hpm
      · have h2 := h
        unfold UsersOnce at h2
        rw [List.nodup_append] at h2
        exact h2.2.2 (List.mem_map_of_mem _ hpm)
    · have hperm : ((s.activeQueue.mergeSort candidateLe).map
          (fun p => p.userId)).Perm (s.activeQueue.map (fun p => p.userId)) :=
        (List.mergeSort_perm s.activeQueue candidateLe).map _
      refine hperm.nodup_iff.mpr ?_
      have h2 := h
      unfold UsersOnce at h2
      rw [List.nodup_append] at h2
      exact h2.1
/-- Claim C2: from any state in which every userId occurs at most once across
the waiting index and the pending matches, every operation — addPlayer,
removePlayer, the full matcher tick, accept (with either createGame outcome,
hence also the re-queue paths), decline and the timeout handler — restores
that invariant; in particular after a tick no userId is simultaneously in the
waiting index and in a pending match. -/
theorem every_operation_preserves_users_once (env : Env) (s : MMState)
    (uid sock mid : String) (elo now : Int) (pri : Bool)
    (supply : List String) (gr : GameResult)
    (h : UsersOnce s) :
    UsersOnce (stateAfter s (addPlayer env s uid sock elo now pri))
    ∧ UsersOnce (removePlayer s uid).1
    ∧ UsersOnce (matchmakingLoop s now supply).1
    ∧ (∀ u2, u2 ∈ queueUserIds (matchmakingLoop s now supply).1 →
        u2 ∉ pendingUserIds (matchmakingLoop s now supply).1)
    ∧ UsersOnce (stateAfter s (acceptMatch env s uid mid now gr))
    ∧ UsersOnce (stateAfter s (declineMatch env s uid mid now))
    ∧ UsersOnce (handleMatchTimeout env s mid now).1 := by
  have htick := matchmakingLoop_usersOnce s now supply h
  refine ⟨addPlayer_usersOnce env s uid sock elo now pri h,
    removePlayer_usersOnce s uid h, htick, ?_,
    acceptMatch_usersOnce env s uid mid now gr h,
    declineMatch_usersOnce env s uid mid now h,
    handleMatchTimeout_usersOnce env s mid now h⟩
  intro u2 hu2
  unfold UsersOnce at htick
  rw [List.nodup_append] at htick
  exact htick.2.2 hu2
/-- Concrete instantiation of the invariant preservation at a mixed state. -/
theorem every_operation_preserves_users_once_witness :
    UsersOnce stMixed ∧ UsersOnce (removePlayer stMixed "idA").1 :=
  ⟨by unfold UsersOnce; decide,
   (every_operation_preserves_users_once envNone stMixed "idA" "sX" "M1" 1500 0
     false ["F1"] (.success "g" "ok") (by unfold UsersOnce; decide)).2.1⟩
/-- Claim C9 evaluation at the failing input: with two matchable players
queued and a Socket.IO server whose emit throws, the exception raised inside
handleMatchFound propagates out of matchmakingLoop — the tick body contains
no handler, nothing is logged at the tick boundary, and the setInterval
callback of onModuleInit rethrows it to the runtime. -/
theorem tick_exception_escapes :
    matchmakingLoopE { emitOk := fun _ => false } stPair 0 ["M1"]
      = .error "socket emit threw" := by
  have hexp : expandRange 0 pA = pA := by
    unfold expandRange
    rw [if_neg]
    norm_num [EXPANSION_INTERVAL_MS, pA]
  have hfind : findOpponent pA [pB] [] = some pB := by
    unfold findOpponent
    rw [List.find?_cons_of_pos]
    have h1 : eloDiff pA pB ≤ toleranceA pA := by
      norm_num [eloDiff, toleranceA, BASE_TOLERANCE, pA, pB]
    have h2 : eloDiff pA pB ≤ toleranceB pB := by
      norm_num [eloDiff, toleranceB, BASE_TOLERANCE, pA, pB]
    simp [h1, h2]
  have hsorted : stPair.activeQueue.mergeSort candidateLe = [pA, pB] := by
    simp only [stPair]
    simp [List.mergeSort, candidateLe, pA, pB]
  unfold matchmakingLoopE
  rw [if_neg (by decide)]
  rw [hsorted]
  simp only [runTickE]
  rw [if_neg (by decide)]
  rw [hexp, hfind]
  simp only [handleMatchFoundE, emitE, Bool.false_eq_true, if_false]
  rfl

end Matchmaking
